import Mathlib

/-!
# Ingress reconciliation of the Pulp operator

A shallow embedding of `controllers/pulp/ingress.go`:

* `pulpIngressObject` (the pure builder of the ingress definition), and
* `pulpIngressController` (one reconcile pass), written as a function from the
  answers of the cluster API to the returned `(ctrl.Result, error)` pair and the
  ordered trace of calls the pass makes.

The trace records the calls in source order: the list, the log lines (by
their message), the remote execution, the status-tracker calls, the ingress
get and create, and the recorded events.  Within one pass every cluster call is
made at most once, so the cluster is a record of answers.

`json.Unmarshal` is a parameter of the controller; `jsonUnmarshalPlugins` is
Go's decoder for the target `[]IngressPlugin` (scanner, parser and decoding of
the five string fields), which `withGoJson` plugs in.

Go strings are modelled by Lean strings.  `len(s) > 0` is the byte length,
`strings.TrimRight` and `strings.Contains` are modelled on the character list
(for UTF-8 text a byte-wise infix is a character-wise infix).
-/

namespace PulpOperator

/-! ## Go standard library -/

/-- Go `strings.TrimRight(s, cutset)`: drops every trailing character of `s`
that occurs in `cutset`. -/
def stringsTrimRight (s cutset : String) : String :=
  ⟨(s.data.reverse.dropWhile (fun c => cutset.data.contains c)).reverse⟩

/-- Scan for `sub` at every position of `s`, front to back. -/
def containsAt (sub : List Char) : List Char → Bool
  | [] => sub.isPrefixOf []
  | c :: cs => sub.isPrefixOf (c :: cs) || containsAt sub cs

/-- Go `strings.Contains(s, substr)`: whether `substr` occurs within `s`. -/
def stringsContains (s substr : String) : Bool :=
  containsAt substr.data s.data

/-- Go `len(s)` of a string: its number of bytes. -/
def goLen (s : String) : Nat := s.utf8ByteSize

/-! ## Go maps with string keys and values -/

/-- A `map[string]string`, kept as a list of bindings with distinct keys. -/
abbrev StringMap := List (String × String)

/-- Go `m[k]`: the bound value, or the zero value `""` when `k` is absent. -/
def StringMap.get (m : StringMap) (k : String) : String :=
  match m.find? (fun kv => kv.1 == k) with
  | some kv => kv.2
  | none => ""

/-- Go `_, ok := m[k]`: whether the key is bound. -/
def StringMap.has (m : StringMap) (k : String) : Bool :=
  (m.find? (fun kv => kv.1 == k)).isSome

/-- Go `m[k] = v`: rebinds `k` when present, adds the binding otherwise. -/
def StringMap.set : StringMap → String → String → StringMap
  | [], k, v => [(k, v)]
  | (k', v') :: rest, k, v =>
    if k' == k then (k, v) :: rest else (k', v') :: StringMap.set rest k v

/-! ## Kubernetes and operator types (the fields this file touches) -/

/-- The `metav1.ConditionStatus` values. -/
inductive ConditionStatus where
  | ConditionTrue
  | ConditionFalse
  | ConditionUnknown
  deriving DecidableEq, Repr

/-- A `metav1.Condition`. -/
structure Condition where
  Type_ : String
  Status : ConditionStatus
  Reason : String
  Message : String
  deriving DecidableEq, Repr

/-- The `PulpSpec` fields read by the ingress controller. -/
structure PulpSpec where
  DeploymentType : String
  IngressHost : String
  HAProxyTimeout : String
  deriving DecidableEq, Repr

/-- The `PulpStatus`. -/
structure PulpStatus where
  Conditions : List Condition
  deriving DecidableEq, Repr

/-- The `repomanagerv1alpha1.Pulp` resource. -/
structure Pulp where
  Name : String
  Namespace : String
  Spec : PulpSpec
  Status : PulpStatus
  deriving DecidableEq, Repr

/-- The `IngressPlugin` struct: a plugin ingress. -/
structure IngressPlugin where
  Name : String
  Path : String
  ServiceName : String
  TargetPort : String
  Rewrite : String
  deriving DecidableEq, Repr

/-- The `netv1.PathType` values. -/
inductive PathType where
  | PathTypeExact
  | PathTypePrefix
  | PathTypeImplementationSpecific
  deriving DecidableEq, Repr

/-- The `netv1.ServiceBackendPort`. -/
structure ServiceBackendPort where
  Name : String
  deriving DecidableEq, Repr

/-- The `netv1.IngressServiceBackend`. -/
structure IngressServiceBackend where
  Name : String
  Port : ServiceBackendPort
  deriving DecidableEq, Repr

/-- The `netv1.IngressBackend`; `Service` is a pointer in Go. -/
structure IngressBackend where
  Service : Option IngressServiceBackend
  deriving DecidableEq, Repr

/-- The `netv1.HTTPIngressPath`; `PathType` is a pointer in Go. -/
structure HTTPIngressPath where
  Path : String
  PathType : Option PathType
  Backend : IngressBackend
  deriving DecidableEq, Repr

/-- The `netv1.HTTPIngressRuleValue`. -/
structure HTTPIngressRuleValue where
  Paths : List HTTPIngressPath
  deriving DecidableEq, Repr

/-- The `netv1.IngressRule`; `HTTP` is a pointer in Go. -/
structure IngressRule where
  Host : String
  HTTP : Option HTTPIngressRuleValue
  deriving DecidableEq, Repr

/-- The `netv1.IngressSpec`. -/
structure IngressSpec where
  Rules : List IngressRule
  deriving DecidableEq, Repr

/-- A `metav1.OwnerReference`, by the name of the owner. -/
structure OwnerReference where
  Name : String
  Controller : Bool
  deriving DecidableEq, Repr

/-- The `metav1.ObjectMeta` fields of the ingress. -/
structure ObjectMeta where
  Name : String
  Namespace : String
  Annotations : StringMap
  OwnerReferences : List OwnerReference
  deriving DecidableEq, Repr

/-- The `netv1.Ingress`. -/
structure Ingress where
  ObjectMeta : ObjectMeta
  Spec : IngressSpec
  deriving DecidableEq, Repr

/-! ## `pulpIngressObject` -/

/-- The annotation key the rewrite rules are folded into. -/
def snippetKey : String := "nginx.ingress.kubernetes.io/configuration-snippet"

/-- The annotation map `pulpIngressObject` starts from. -/
def initialAnnotations (m : Pulp) : StringMap :=
  [ ("haproxy.router.openshift.io/timeout", m.Spec.HAProxyTimeout),
    ("nginx.ingress.kubernetes.io/proxy-body-size", "0"),
    ("nginx.org/client-max-body-size", "10m"),
    ("nginx.ingress.kubernetes.io/proxy-read-timeout", "120s"),
    ("nginx.ingress.kubernetes.io/proxy-connect-timeout", "120s"),
    ("nginx.ingress.kubernetes.io/proxy-send-timeout", "120s") ]

/-- The string assigned to `rewrite` for a rewrite-bearing plugin. -/
def rewriteOf (plugin : IngressPlugin) : String :=
  "rewrite ^" ++ stringsTrimRight plugin.Path "/" ++ "* " ++ plugin.Rewrite ++ ";"

/-- The `netv1.HTTPIngressPath` built for a plugin without rewrite. -/
def pathOf (plugin : IngressPlugin) : HTTPIngressPath :=
  { Path := plugin.Path
    PathType := some PathType.PathTypePrefix
    Backend := { Service := some { Name := plugin.ServiceName
                                   Port := { Name := plugin.TargetPort } } } }

/-- The loop variables of `pulpIngressObject` that outlive an iteration: the
map `annotation` and the slice `paths`. -/
structure LoopState where
  annotations : StringMap
  paths : List HTTPIngressPath
  deriving DecidableEq, Repr

/-- One iteration of `for _, plugin := range plugins`. -/
def loopBody (st : LoopState) (plugin : IngressPlugin) : LoopState :=
  if goLen plugin.Rewrite > 0 then
    let rewrite := rewriteOf plugin
    if stringsContains (st.annotations.get snippetKey) rewrite then
      st
    else
      { st with annotations := st.annotations.set snippetKey rewrite }
  else
    { st with paths := st.paths ++ [pathOf plugin] }

/-- The whole loop of `pulpIngressObject`, from a given state. -/
def runLoop (st : LoopState) (plugins : List IngressPlugin) : LoopState :=
  plugins.foldl loopBody st

/-- The function `pulpIngressObject(m, plugins)`. -/
def pulpIngressObject (m : Pulp) (plugins : List IngressPlugin) : Ingress :=
  let st := runLoop { annotations := initialAnnotations m, paths := [] } plugins
  { ObjectMeta := { Name := m.Name
                    Namespace := m.Namespace
                    Annotations := st.annotations
                    OwnerReferences := [] }
    Spec := { Rules := [ { Host := m.Spec.IngressHost
                           HTTP := some { Paths := st.paths } } ] } }

/-- The path rules of an ingress: the paths of all its rules, in order. -/
def Ingress.pathRules (i : Ingress) : List HTTPIngressPath :=
  i.Spec.Rules.flatMap fun r =>
    match r.HTTP with
    | some h => h.Paths
    | none => []

/-! ## `pulpIngressController` -/

/-- A `corev1.Pod`, with the fields the controller reads. -/
structure Pod where
  Name : String
  Namespace : String
  Phase : String
  deriving DecidableEq, Repr

/-- A Go `error` value returned by the cluster API: its text, and what
`errors.IsNotFound` answers on it. -/
structure GoError where
  Error : String
  IsNotFound : Bool
  deriving DecidableEq, Repr

/-- A `time.Duration`, in nanoseconds. -/
abbrev Duration := Int

/-- The constant `time.Second`. -/
def Second : Duration := 1000000000

/-- The constant `time.Minute`. -/
def Minute : Duration := 60 * Second

/-- A `ctrl.Result`. -/
structure Result where
  Requeue : Bool := false
  RequeueAfter : Duration := 0
  deriving DecidableEq, Repr

/-- The calls one reconcile pass makes on its collaborators, as they appear
in the source. -/
inductive Action where
  | List (ns : String) (labels : StringMap)
  | LogInfo (msg : String)
  | LogError (msg : String)
  | ContainerExec (pod : Pod) (command : List String) (container : String) (ns : String)
  | UpdateStatus (status : ConditionStatus) (conditionType reason message : String)
  | Get (name ns : String)
  | Create (ingress : Ingress)
  | Event (eventtype reason message : String)
  deriving DecidableEq, Repr

/-- What the cluster answers to the calls of one pass. `get` is the error of
`r.Get` on the ingress (`none` for `nil`); the fetched object is never read. -/
structure Cluster where
  list : String → StringMap → Except GoError (List Pod)
  containerExec : Pod → List String → String → String → Except GoError String
  get : String → String → Option GoError
  create : Ingress → Option GoError

/-- The functions the controller calls that live outside `ingress.go`.
`jsonUnmarshal out` is the value of `pulpPlugins` after
`json.Unmarshal([]byte(out), &pulpPlugins)` (its error is dropped by the
caller); `title` is `cases.Title(language.English, cases.Compact).String`;
`updateStatus` gives the status conditions of the in-memory resource after the
call `r.updateStatus(ctx, pulp, status, type, reason, message)`, which is taken
to leave the name, namespace and spec of the resource as they are. -/
structure Deps where
  getPulpSetting : Pulp → String → String
  jsonUnmarshal : String → List IngressPlugin
  title : String → String
  updateStatus : Pulp → ConditionStatus → String → String → String → List Condition

/-- The `IsStatusConditionFalse` helper of apimachinery: the first condition of
the given type exists and has status `False`. -/
def IsStatusConditionFalse (conditions : List Condition) (conditionType : String) : Bool :=
  match conditions.find? (fun c => c.Type_ == conditionType) with
  | some c => c.Status == ConditionStatus.ConditionFalse
  | none => false

/-- The `ctrl.SetControllerReference(owner, ingress, scheme)` call: records the
owner as the controlling owner reference. -/
def SetControllerReference (owner : Pulp) (ingress : Ingress) : Ingress :=
  { ingress with
    ObjectMeta := { ingress.ObjectMeta with
      OwnerReferences := ingress.ObjectMeta.OwnerReferences ++
        [{ Name := owner.Name, Controller := true }] } }

/-- The labels the content pods are selected by. -/
def contentLabels (pulp : Pulp) : StringMap :=
  [ ("app.kubernetes.io/part-of", pulp.Spec.DeploymentType),
    ("app.kubernetes.io/managed-by", pulp.Spec.DeploymentType ++ "-operator"),
    ("app.kubernetes.io/instance", pulp.Spec.DeploymentType ++ "-content-" ++ pulp.Name),
    ("app.kubernetes.io/component", "content") ]

/-- The variables `IsPodRunning` and `pod` after the loop over
`podList.Items`, with the log lines written on the way. -/
structure PodScan where
  IsPodRunning : Bool
  pod : Pod
  trace : List Action
  deriving DecidableEq, Repr

/-- The loop over `podList.Items`: stops at the first pod whose phase is
`Running`. -/
def scanPods : List Pod → PodScan
  | [] => { IsPodRunning := false, pod := { Name := "", Namespace := "", Phase := "" }, trace := [] }
  | p :: rest =>
    if p.Phase == "Running" then
      { IsPodRunning := true, pod := p,
        trace := [Action.LogInfo "Checking Content pod", Action.LogInfo "Running!"] }
    else
      let r := scanPods rest
      { r with trace := [Action.LogInfo "Checking Content pod",
                         Action.LogInfo "Content Pod isn't running yet!"] ++ r.trace }

/-- The literal `defaultPlugins` of the controller. -/
def defaultPlugins (deps : Deps) (pulp : Pulp) : List IngressPlugin :=
  [ { Name := pulp.Name ++ "-content"
      Path := deps.getPulpSetting pulp "content_path_prefix"
      TargetPort := "content-24816"
      ServiceName := pulp.Name ++ "-content-svc"
      Rewrite := "" },
    { Name := pulp.Name ++ "-api-v3"
      Path := deps.getPulpSetting pulp "api_root" ++ "api/v3/"
      TargetPort := "api-24817"
      ServiceName := pulp.Name ++ "-api-svc"
      Rewrite := "" },
    { Name := pulp.Name ++ "-auth"
      Path := "/auth/login/"
      TargetPort := "api-24817"
      ServiceName := pulp.Name ++ "-api-svc"
      Rewrite := "" },
    { Name := pulp.Name
      Path := "/"
      TargetPort := "api-24817"
      ServiceName := pulp.Name ++ "-api-svc"
      Rewrite := "" } ]

/-- The statement `pulpPlugins = append(defaultPlugins, pulpPlugins...)`, for
the discovered list `pulpPlugins`. -/
def mergePlugins (deps : Deps) (pulp : Pulp) (pulpPlugins : List IngressPlugin) :
    List IngressPlugin :=
  defaultPlugins deps pulp ++ pulpPlugins

/-- What a pass returns, with the ordered trace of the calls it made. -/
structure Outcome where
  result : Result
  err : Option GoError
  trace : List Action
  deriving DecidableEq, Repr

/-- The tail of the controller, from the comment `we should only update the
status when Ingress-Ready==false` on; `conditions` are the status conditions of
the in-memory resource at that point. -/
def finishIngress (deps : Deps) (pulp : Pulp) (conditions : List Condition)
    (trace : List Action) : Outcome :=
  if IsStatusConditionFalse conditions
      (deps.title pulp.Spec.DeploymentType ++ "-Ingress-Ready") then
    { result := {}, err := none,
      trace := trace ++
        [ Action.UpdateStatus ConditionStatus.ConditionTrue
            (pulp.Spec.DeploymentType ++ "-Ingress-Ready") "IngressTasksFinished"
            "All Ingress tasks ran successfully",
          Action.Event "Normal" "IngressReady" "All Ingress tasks ran successfully" ] }
  else
    { result := {}, err := none, trace := trace }

/-- The controller from `// get ingress` on, for the merged list
`pulpPlugins`. -/
def reconcileIngress (deps : Deps) (api : Cluster) (pulp : Pulp)
    (pulpPlugins : List IngressPlugin) (trace : List Action) : Outcome :=
  let trace := trace ++ [Action.Get pulp.Name pulp.Namespace]
  match api.get pulp.Name pulp.Namespace with
  | some err =>
    if err.IsNotFound then
      let ingressPwd := SetControllerReference pulp (pulpIngressObject pulp pulpPlugins)
      let conditionType := pulp.Spec.DeploymentType ++ "-Ingress-Ready"
      let trace := trace ++
        [ Action.LogInfo "Creating a new ingress",
          Action.UpdateStatus ConditionStatus.ConditionFalse conditionType
            "CreatingIngress" ("Creating " ++ pulp.Name ++ "-ingress"),
          Action.Create ingressPwd ]
      let conditions := deps.updateStatus pulp ConditionStatus.ConditionFalse conditionType
        "CreatingIngress" ("Creating " ++ pulp.Name ++ "-ingress")
      match api.create ingressPwd with
      | some err =>
        { result := {}, err := some err,
          trace := trace ++
            [ Action.LogError "Failed to create new ingress",
              Action.UpdateStatus ConditionStatus.ConditionFalse conditionType
                "ErrorCreatingIngress"
                ("Failed to create " ++ pulp.Name ++ "-ingress: " ++ err.Error),
              Action.Event "Warning" "Failed" "Failed to create new ingress" ] }
      | none => finishIngress deps pulp conditions trace
    else
      { result := {}, err := some err,
        trace := trace ++ [Action.LogError "Failed to get ingress"] }
  | none => finishIngress deps pulp pulp.Status.Conditions trace

/-- The method `pulpIngressController(ctx, pulp, log)`: one reconcile pass. -/
def pulpIngressController (deps : Deps) (api : Cluster) (pulp : Pulp) : Outcome :=
  let labels := contentLabels pulp
  let trace := [Action.List pulp.Namespace labels]
  match api.list pulp.Namespace labels with
  | .error _ =>
    { result := { RequeueAfter := Minute }, err := none,
      trace := trace ++ [Action.LogError "Failed to list Content pods"] }
  | .ok items =>
    let scan := scanPods items
    let trace := trace ++ scan.trace
    if !scan.IsPodRunning then
      { result := { RequeueAfter := 5 * Second }, err := none,
        trace := trace ++ [Action.LogInfo "Content pod isn't running yet!"] }
    else
      let pod := scan.pod
      let execCmd := ["/usr/bin/route_paths.py", pulp.Name]
      let trace := trace ++ [Action.ContainerExec pod execCmd "content" pod.Namespace]
      match api.containerExec pod execCmd "content" pod.Namespace with
      | .error err =>
        { result := {}, err := some err,
          trace := trace ++
            [ Action.LogError ("Failed to get ingresss from " ++ pod.Name),
              Action.UpdateStatus ConditionStatus.ConditionFalse
                (pulp.Spec.DeploymentType ++ "-Ingress-Ready")
                "Failed to get ingresss!" ("FailedGet" ++ pod.Name) ] }
      | .ok cmdOutput =>
        let pulpPlugins := deps.jsonUnmarshal cmdOutput
        let pulpPlugins := mergePlugins deps pulp pulpPlugins
        reconcileIngress deps api pulp pulpPlugins trace

/-- Whether an action is a remote execution. -/
def Action.isExec : Action → Bool
  | .ContainerExec _ _ _ _ => true
  | _ => false

/-- Whether an action fetches the ingress. -/
def Action.isGet : Action → Bool
  | .Get _ _ => true
  | _ => false

/-- Whether an action creates the ingress. -/
def Action.isCreate : Action → Bool
  | .Create _ => true
  | _ => false

/-- Whether an action is a status update. -/
def Action.isUpdateStatus : Action → Bool
  | .UpdateStatus _ _ _ _ => true
  | _ => false

/-- Whether an action records an event. -/
def Action.isEvent : Action → Bool
  | .Event _ _ _ => true
  | _ => false

/-- The status conditions of the in-memory resource when the pass reaches the
check `IsStatusConditionFalse(pulp.Status.Conditions, ...)`: those of the
resource as given when the ingress was found, those left by the
`CreatingIngress` call of the status tracker when it was just created. -/
def conditionsAtCheck (deps : Deps) (api : Cluster) (pulp : Pulp) : List Condition :=
  match api.get pulp.Name pulp.Namespace with
  | none => pulp.Status.Conditions
  | some _ =>
    deps.updateStatus pulp ConditionStatus.ConditionFalse
      (pulp.Spec.DeploymentType ++ "-Ingress-Ready")
      "CreatingIngress" ("Creating " ++ pulp.Name ++ "-ingress")

/-- The effect of one call on the ingress object stored in the cluster: a
`Create` the cluster accepts stores its argument; no other call of the
controller writes an ingress (the source has no `Update` call). -/
def storeIngress (api : Cluster) (live : Option Ingress) : Action → Option Ingress
  | .Create ingress => if (api.create ingress).isNone then some ingress else live
  | _ => live

/-- The ingress object stored in the cluster after the calls of a trace,
starting from the stored object `live`. -/
def liveIngressAfter (api : Cluster) (live : Option Ingress) (trace : List Action) :
    Option Ingress :=
  trace.foldl (storeIngress api) live

/-! ## Go `encoding/json`, for the target `[]IngressPlugin`

`json.Unmarshal` first checks that the whole input is one valid JSON text and
only then decodes; a value of the wrong type for its target is recorded as an
error and skipped, and the decoding goes on. -/

/-- A JSON value; a number keeps its text. -/
inductive JsonValue where
  | null
  | bool (b : Bool)
  | number (text : String)
  | string (s : String)
  | array (elems : List JsonValue)
  | object (members : List (String × JsonValue))

/-- The tokens of a JSON text. -/
inductive Token where
  | beginArray
  | endArray
  | beginObject
  | endObject
  | colon
  | comma
  | scalar (v : JsonValue)

/-- A unit of a string literal: a character written as such or through a short
escape, or the code of a `\uXXXX` escape. -/
inductive StrUnit where
  | char (c : Char)
  | escaped (code : Nat)

/-- Go `utf16.IsSurrogate`. -/
def isSurrogate (n : Nat) : Bool := 0xD800 ≤ n && n < 0xE000

/-- The rune written for a single `\uXXXX` escape: the replacement character
for a surrogate that is not part of a valid pair. -/
def singleRune (n : Nat) : Char :=
  if isSurrogate n then Char.ofNat 0xFFFD else Char.ofNat n

/-- The replacement character written for a high surrogate escape that no low
surrogate escape followed. -/
def pendingRune : Option Nat → List Char
  | none => []
  | some _ => [Char.ofNat 0xFFFD]

/-- The characters of a string literal, as `unquote` produces them: a high
surrogate escape directly followed by a low surrogate escape is one rune;
`pending` is the high surrogate escape just read, if any. -/
def decodeUnits (pending : Option Nat) : List StrUnit → List Char
  | [] => pendingRune pending
  | .char c :: rest => pendingRune pending ++ c :: decodeUnits none rest
  | .escaped n :: rest =>
    if pending.isSome && (0xDC00 ≤ n && n < 0xE000) then
      Char.ofNat (0x10000 + (pending.getD 0 - 0xD800) * 0x400 + (n - 0xDC00)) ::
        decodeUnits none rest
    else if 0xD800 ≤ n && n < 0xDC00 then
      pendingRune pending ++ decodeUnits (some n) rest
    else
      pendingRune pending ++ singleRune n :: decodeUnits none rest

/-- The states of the scanner inside a number. -/
inductive NumState where
  | neg
  | zero
  | int
  | dot
  | frac
  | exp
  | expSign
  | expDigits
  deriving DecidableEq

/-- Whether a number may end in this state. -/
def NumState.accepting : NumState → Bool
  | .zero => true
  | .int => true
  | .frac => true
  | .expDigits => true
  | _ => false

/-- One character inside a number: `none` for an invalid character,
`some none` when the number ends before the character, `some (some st)` when
the character continues the number. -/
def numStep (st : NumState) (c : Char) : Option (Option NumState) :=
  match st with
  | .neg =>
    if c = '0' then some (some .zero)
    else if c.isDigit then some (some .int)
    else none
  | .zero =>
    if c = '.' then some (some .dot)
    else if c = 'e' ∨ c = 'E' then some (some .exp)
    else some none
  | .int =>
    if c.isDigit then some (some .int)
    else if c = '.' then some (some .dot)
    else if c = 'e' ∨ c = 'E' then some (some .exp)
    else some none
  | .dot => if c.isDigit then some (some .frac) else none
  | .frac =>
    if c.isDigit then some (some .frac)
    else if c = 'e' ∨ c = 'E' then some (some .exp)
    else some none
  | .exp =>
    if c = '+' ∨ c = '-' then some (some .expSign)
    else if c.isDigit then some (some .expDigits)
    else none
  | .expSign => if c.isDigit then some (some .expDigits) else none
  | .expDigits => if c.isDigit then some (some .expDigits) else some none

/-- The states of the scanner between and inside tokens. String units and
number text are kept most recent first. -/
inductive LexState where
  | idle
  | inString (units : List StrUnit)
  | inEscape (units : List StrUnit)
  | inHex (units : List StrUnit) (digits : List Nat)
  | inNumber (st : NumState) (text : List Char)
  | inLiteral (rest : List Char) (v : JsonValue)

/-- The value of a hexadecimal digit. -/
def hexDigit (c : Char) : Option Nat :=
  if '0' ≤ c ∧ c ≤ '9' then some (c.toNat - '0'.toNat)
  else if 'a' ≤ c ∧ c ≤ 'f' then some (c.toNat - 'a'.toNat + 10)
  else if 'A' ≤ c ∧ c ≤ 'F' then some (c.toNat - 'A'.toNat + 10)
  else none

/-- One character between tokens; `tokens` are kept most recent first. -/
def lexIdle (tokens : List Token) (c : Char) : Option (LexState × List Token) :=
  if c = ' ' ∨ c = '\t' ∨ c = '\r' ∨ c = '\n' then some (.idle, tokens)
  else if c = '[' then some (.idle, .beginArray :: tokens)
  else if c = ']' then some (.idle, .endArray :: tokens)
  else if c = '\x7b' then some (.idle, .beginObject :: tokens)
  else if c = '\x7d' then some (.idle, .endObject :: tokens)
  else if c = ':' then some (.idle, .colon :: tokens)
  else if c = ',' then some (.idle, .comma :: tokens)
  else if c = '"' then some (.inString [], tokens)
  else if c = '-' then some (.inNumber .neg [c], tokens)
  else if c = '0' then some (.inNumber .zero [c], tokens)
  else if c.isDigit then some (.inNumber .int [c], tokens)
  else if c = 't' then some (.inLiteral ['r', 'u', 'e'] (.bool true), tokens)
  else if c = 'f' then some (.inLiteral ['a', 'l', 's', 'e'] (.bool false), tokens)
  else if c = 'n' then some (.inLiteral ['u', 'l', 'l'] .null, tokens)
  else none

/-- The character a short escape stands for. -/
def shortEscape (c : Char) : Option Char :=
  if c = '"' ∨ c = '\\' ∨ c = '/' then some c
  else if c = 'b' then some (Char.ofNat 8)
  else if c = 'f' then some (Char.ofNat 12)
  else if c = 'n' then some '\n'
  else if c = 'r' then some '\r'
  else if c = 't' then some '\t'
  else none

/-- One character of the scanner. -/
def lexStep : LexState × List Token → Char → Option (LexState × List Token)
  | (.idle, tokens), c => lexIdle tokens c
  | (.inString units, tokens), c =>
    if c = '"' then
      some (.idle, .scalar (.string ⟨decodeUnits none units.reverse⟩) :: tokens)
    else if c = '\\' then some (.inEscape units, tokens)
    else if c.toNat < 0x20 then none
    else some (.inString (.char c :: units), tokens)
  | (.inEscape units, tokens), c =>
    if c = 'u' then some (.inHex units [], tokens)
    else
      match shortEscape c with
      | some e => some (.inString (.char e :: units), tokens)
      | none => none
  | (.inHex units digits, tokens), c =>
    match hexDigit c with
    | none => none
    | some d =>
      if digits.length = 3 then
        some (.inString (.escaped ((digits ++ [d]).foldl (fun n x => 16 * n + x) 0) :: units),
          tokens)
      else some (.inHex units (digits ++ [d]), tokens)
  | (.inNumber st text, tokens), c =>
    match numStep st c with
    | none => none
    | some (some st2) => some (.inNumber st2 (c :: text), tokens)
    | some none =>
      if st.accepting then lexIdle (.scalar (.number ⟨text.reverse⟩) :: tokens) c else none
  | (.inLiteral rest v, tokens), c =>
    match rest with
    | [] => none
    | r :: rest2 =>
      if c = r then
        if rest2.isEmpty then some (.idle, .scalar v :: tokens)
        else some (.inLiteral rest2 v, tokens)
      else none

/-- The scanner over the whole input. -/
def lexRun : LexState × List Token → List Char → Option (LexState × List Token)
  | s, [] => some s
  | s, c :: cs =>
    match lexStep s c with
    | none => none
    | some s2 => lexRun s2 cs

/-- The end of the input: only between tokens or after a complete number. -/
def lexEnd : LexState × List Token → Option (List Token)
  | (.idle, tokens) => some tokens.reverse
  | (.inNumber st text, tokens) =>
    if st.accepting then some (Token.scalar (.number ⟨text.reverse⟩) :: tokens).reverse
    else none
  | _ => none

/-- The tokens of a JSON text, `none` for an invalid token. -/
def tokenize (cs : List Char) : Option (List Token) :=
  match lexRun (.idle, []) cs with
  | none => none
  | some s => lexEnd s

/-- An open array or object of the parser, elements and members most recent
first; `key` is the member name read and not yet followed by its value. -/
inductive Frame where
  | array (elems : List JsonValue)
  | object (members : List (String × JsonValue)) (key : Option String)

/-- What the parser may read next. -/
inductive Expect where
  | value
  | arrayFirst
  | arrayNext
  | objectFirst
  | objectKey
  | objectColon
  | objectNext
  | done
  deriving DecidableEq

/-- The state of the parser: the open arrays and objects, innermost first,
what may come next, and the value of the text once complete. -/
structure ParseState where
  stack : List Frame
  expect : Expect
  result : Option JsonValue

/-- The scanner constant `maxNestingDepth`. -/
def maxNestingDepth : Nat := 10000

/-- A value is complete: it is the whole text, the next element of the
innermost array, or the value of the pending member. -/
def completeValue (stack : List Frame) (v : JsonValue) : Option ParseState :=
  match stack with
  | [] => some { stack := [], expect := .done, result := some v }
  | .array elems :: rest =>
    some { stack := .array (v :: elems) :: rest, expect := .arrayNext, result := none }
  | .object members (some k) :: rest =>
    some { stack := .object ((k, v) :: members) none :: rest, expect := .objectNext,
           result := none }
  | .object _ none :: _ => none

/-- The innermost array or object is closed. -/
def closeFrame (stack : List Frame) : Option ParseState :=
  match stack with
  | .array elems :: rest => completeValue rest (.array elems.reverse)
  | .object members none :: rest => completeValue rest (.object members.reverse)
  | _ => none

/-- A token where a value starts. -/
def startValue (stack : List Frame) (t : Token) : Option ParseState :=
  match t with
  | .scalar v => completeValue stack v
  | .beginArray =>
    if stack.length < maxNestingDepth then
      some { stack := .array [] :: stack, expect := .arrayFirst, result := none }
    else none
  | .beginObject =>
    if stack.length < maxNestingDepth then
      some { stack := .object [] none :: stack, expect := .objectFirst, result := none }
    else none
  | _ => none

/-- A member name is read. -/
def startMember (stack : List Frame) (k : String) : Option ParseState :=
  match stack with
  | .object members none :: rest =>
    some { stack := .object members (some k) :: rest, expect := .objectColon, result := none }
  | _ => none

/-- One token of the parser. -/
def parseStep (s : ParseState) (t : Token) : Option ParseState :=
  match s.expect, t with
  | .value, t => startValue s.stack t
  | .arrayFirst, .endArray => closeFrame s.stack
  | .arrayFirst, t => startValue s.stack t
  | .arrayNext, .comma => some { s with expect := .value }
  | .arrayNext, .endArray => closeFrame s.stack
  | .objectFirst, .endObject => closeFrame s.stack
  | .objectFirst, .scalar (.string k) => startMember s.stack k
  | .objectKey, .scalar (.string k) => startMember s.stack k
  | .objectColon, .colon => some { s with expect := .value }
  | .objectNext, .comma => some { s with expect := .objectKey }
  | .objectNext, .endObject => closeFrame s.stack
  | _, _ => none

/-- The parser over all tokens. -/
def parseRun : ParseState → List Token → Option ParseState
  | s, [] => some s
  | s, t :: ts =>
    match parseStep s t with
    | none => none
    | some s2 => parseRun s2 ts

/-- The value of a JSON text: `none` when the text is not exactly one valid
JSON value (what `checkValid` rejects, the empty text included). -/
def parseJson (data : String) : Option JsonValue :=
  match tokenize data.data with
  | none => none
  | some tokens =>
    match parseRun { stack := [], expect := .value, result := none } tokens with
    | none => none
    | some s => if s.expect = .done then s.result else none

/-- The fields of `IngressPlugin`, in declaration order. -/
inductive Field where
  | Name
  | Path
  | ServiceName
  | TargetPort
  | Rewrite
  deriving DecidableEq

/-- The `json` tag of a field. -/
def Field.tag : Field → String
  | .Name => "name"
  | .Path => "path"
  | .ServiceName => "serviceName"
  | .TargetPort => "targetPort"
  | .Rewrite => "rewrite"

/-- All fields, in declaration order. -/
def allFields : List Field :=
  [Field.Name, Field.Path, Field.ServiceName, Field.TargetPort, Field.Rewrite]

/-- Simple case folding of a rune, as far as the ASCII tags can match: the
ASCII capitals, the long s and the Kelvin sign. -/
def foldRune (c : Char) : Char :=
  if 'A' ≤ c ∧ c ≤ 'Z' then Char.ofNat (c.toNat + 32)
  else if c = Char.ofNat 0x17F then 's'
  else if c = Char.ofNat 0x212A then 'k'
  else c

/-- The field a member name decodes into: an exact match of the tag is
preferred, a case-insensitive match is accepted. -/
def fieldFor (key : String) : Option Field :=
  match allFields.find? (fun f => f.tag == key) with
  | some f => some f
  | none => allFields.find? (fun f => f.tag.data.map foldRune == key.data.map foldRune)

/-- Assignment of a string to a field. -/
def setField (p : IngressPlugin) (f : Field) (s : String) : IngressPlugin :=
  match f with
  | .Name => { p with Name := s }
  | .Path => { p with Path := s }
  | .ServiceName => { p with ServiceName := s }
  | .TargetPort => { p with TargetPort := s }
  | .Rewrite => { p with Rewrite := s }

/-- One member of a JSON object decoded into the struct; the flag records a
type error. An unknown name is skipped, `null` leaves the field as it is, a
value that is not a string is a type error and leaves the field as it is. -/
def decodeMember (acc : IngressPlugin × Bool) (kv : String × JsonValue) :
    IngressPlugin × Bool :=
  match fieldFor kv.1 with
  | none => acc
  | some f =>
    match kv.2 with
    | .string s => (setField acc.1 f s, acc.2)
    | .null => acc
    | _ => (acc.1, true)

/-- The zero value `IngressPlugin{}`. -/
def zeroPlugin : IngressPlugin :=
  { Name := "", Path := "", ServiceName := "", TargetPort := "", Rewrite := "" }

/-- A JSON value decoded into a fresh slice element: an object fills the
struct, `null` leaves it zero, any other value is a type error and leaves it
zero. -/
def decodePlugin : JsonValue → IngressPlugin × Bool
  | .object members => members.foldl decodeMember (zeroPlugin, false)
  | .null => (zeroPlugin, false)
  | _ => (zeroPlugin, true)

/-- A JSON value decoded into the nil slice `pulpPlugins`: an array gives one
element per entry, `null` leaves the slice nil, any other value is a type error
and leaves the slice nil. -/
def decodePlugins : JsonValue → List IngressPlugin × Bool
  | .array elems =>
    (elems.map (fun v => (decodePlugin v).1), elems.any (fun v => (decodePlugin v).2))
  | .null => ([], false)
  | _ => ([], true)

/-- The call `json.Unmarshal([]byte(data), &pulpPlugins)` on the nil slice:
the value left in `pulpPlugins`, and whether an error is returned. -/
def jsonUnmarshalPlugins (data : String) : List IngressPlugin × Bool :=
  match parseJson data with
  | none => ([], true)
  | some v => decodePlugins v

/-- The collaborators with Go's `json.Unmarshal` as the decoder. -/
def withGoJson (deps : Deps) : Deps :=
  { deps with jsonUnmarshal := fun data => (jsonUnmarshalPlugins data).1 }

/-! ## Sample inputs -/

/-- A sample resource named `pulp`. -/
def samplePulp : Pulp :=
  { Name := "pulp", Namespace := "ns",
    Spec := { DeploymentType := "pulp", IngressHost := "pulp.example.com",
              HAProxyTimeout := "180s" },
    Status := { Conditions := [] } }

/-- A sample discovered descriptor without rewrite, on the root path. -/
def sampleRootPlugin : IngressPlugin :=
  { Name := "extra", Path := "/", ServiceName := "extra-svc", TargetPort := "extra-8080",
    Rewrite := "" }

/-- Sample collaborators: fixed settings, a discovery output that decodes to
`sampleRootPlugin`, the identity for `title`, and a status tracker that leaves
the in-memory conditions alone. -/
def sampleDeps : Deps :=
  { getPulpSetting := fun _ k =>
      if k == "content_path_prefix" then "/pulp/content/" else "/pulp/"
    jsonUnmarshal := fun _ => [sampleRootPlugin]
    title := fun s => s
    updateStatus := fun pulp _ _ _ _ => pulp.Status.Conditions }

/-- A rewrite-bearing descriptor whose rewrite text embeds a whole rewrite
directive. -/
def outerRewritePlugin : IngressPlugin :=
  { Name := "outer", Path := "/x", ServiceName := "x-svc", TargetPort := "x-80",
    Rewrite := "rewrite ^/y* /z;" }

/-- A rewrite-bearing descriptor whose rewrite string occurs inside the one of
`outerRewritePlugin`. -/
def innerRewritePlugin : IngressPlugin :=
  { Name := "inner", Path := "/y/", ServiceName := "y-svc", TargetPort := "y-80",
    Rewrite := "/z" }

/-- A pending content pod. -/
def pendingPod : Pod := { Name := "content-0", Namespace := "ns", Phase := "Pending" }

/-- A running content pod. -/
def runningPod : Pod := { Name := "content-1", Namespace := "ns", Phase := "Running" }

/-- A second running content pod. -/
def otherRunningPod : Pod := { Name := "content-2", Namespace := "ns", Phase := "Running" }

/-- A not-found error of the API. -/
def notFoundErr : GoError := { Error := "ingress not found", IsNotFound := true }

/-- A cluster with one pending and two running content pods, no ingress yet,
where execution and creation succeed. -/
def freshCluster : Cluster :=
  { list := fun _ _ => .ok [pendingPod, runningPod, otherRunningPod]
    containerExec := fun _ _ _ _ => .ok "[]"
    get := fun _ _ => some notFoundErr
    create := fun _ => none }

/-- A cluster whose only content pod is still pending. -/
def pendingCluster : Cluster :=
  { list := fun _ _ => .ok [pendingPod]
    containerExec := fun _ _ _ _ => .ok "[]"
    get := fun _ _ => none
    create := fun _ => none }

/-- A cluster where the pod list call fails. -/
def listFailsCluster : Cluster :=
  { list := fun _ _ => .error { Error := "etcd timeout", IsNotFound := false }
    containerExec := fun _ _ _ _ => .ok "[]"
    get := fun _ _ => none
    create := fun _ => none }

/-- A cluster where the remote execution fails. -/
def execFailsCluster : Cluster :=
  { list := fun _ _ => .ok [pendingPod, runningPod, otherRunningPod]
    containerExec := fun _ _ _ _ => .error { Error := "container not ready", IsNotFound := false }
    get := fun _ _ => none
    create := fun _ => none }

/-- A cluster without ingress where the creation fails. -/
def createFailsCluster : Cluster :=
  { list := fun _ _ => .ok [pendingPod, runningPod, otherRunningPod]
    containerExec := fun _ _ _ _ => .ok "[]"
    get := fun _ _ => some { Error := "ingress not found", IsNotFound := true }
    create := fun _ => some { Error := "admission denied", IsNotFound := false } }

/-- A cluster where the ingress lookup fails with an error other than
not-found. -/
def getFailsCluster : Cluster :=
  { list := fun _ _ => .ok [pendingPod, runningPod, otherRunningPod]
    containerExec := fun _ _ _ _ => .ok "[]"
    get := fun _ _ => some { Error := "internal error", IsNotFound := false }
    create := fun _ => none }

/-- A cluster with a running content pod where the ingress already exists. -/
def convergedCluster : Cluster :=
  { list := fun _ _ => .ok [pendingPod, runningPod, otherRunningPod]
    containerExec := fun _ _ _ _ => .ok "[]"
    get := fun _ _ => none
    create := fun _ => none }

/-- A live ingress left over from an earlier declaration: another host and no
path rule. -/
def staleIngress : Ingress :=
  { ObjectMeta := { Name := "pulp", Namespace := "ns", Annotations := [],
                    OwnerReferences := [{ Name := "pulp", Controller := true }] }
    Spec := { Rules := [{ Host := "old.example.com", HTTP := some { Paths := [] } }] } }

/-- The sample resource with its Ingress-Ready condition still `False`. -/
def pendingReadyPulp : Pulp :=
  { samplePulp with
    Status := { Conditions := [{ Type_ := "pulp-Ingress-Ready",
                                 Status := ConditionStatus.ConditionFalse,
                                 Reason := "CreatingIngress",
                                 Message := "Creating pulp-ingress" }] } }

/-- A discovery output that is a JSON array whose entry gives the target port
as a number instead of a string. -/
def mistypedOutput : String :=
  "[\x7b\"name\":\"extra\",\"path\":\"/extra/\",\"serviceName\":\"extra-svc\",\"targetPort\":8080\x7d]"

/-- A cluster without ingress whose content pod prints `mistypedOutput`. -/
def mistypedCluster : Cluster :=
  { list := fun _ _ => .ok [pendingPod, runningPod, otherRunningPod]
    containerExec := fun _ _ _ _ => .ok mistypedOutput
    get := fun _ _ => some notFoundErr
    create := fun _ => none }

/-- A cluster with an ingress whose content pod prints text that is not JSON. -/
def garbledCluster : Cluster :=
  { list := fun _ _ => .ok [pendingPod, runningPod, otherRunningPod]
    containerExec := fun _ _ _ _ => .ok "Traceback (most recent call last):"
    get := fun _ _ => none
    create := fun _ => none }

end PulpOperator


namespace PulpOperator

/-! ## Facts about the modelled library functions -/

theorem goLen_pos_iff (s : String) : 0 < goLen s ↔ s ≠ "" := by
  unfold goLen
  rcases s with ⟨cs⟩
  cases cs with
  | nil => simp [String.utf8ByteSize, String.utf8ByteSize.go]
  | cons c cs =>
    have h := Char.utf8Size_pos c
    simp [String.utf8ByteSize, String.utf8ByteSize.go]
    constructor
    · intro _ h; exact absurd (congrArg String.data h) (by simp)
    · intro _; exact Or.inr h

theorem string_append_left_cancel (n a b : String) (h : n ++ a = n ++ b) : a = b := by
  have h1 : (n ++ a).data = (n ++ b).data := congrArg String.data h
  simp only [String.data_append] at h1
  have h2 := List.append_cancel_left h1
  rcases a with ⟨a⟩
  rcases b with ⟨b⟩
  simp_all

/-! ## The loop of `pulpIngressObject` -/

theorem loopBody_paths (st : LoopState) (p : IngressPlugin) :
    (loopBody st p).paths =
      st.paths ++ (if p.Rewrite = "" then [pathOf p] else []) := by
  unfold loopBody
  by_cases h : p.Rewrite = ""
  · have hn : ¬ goLen p.Rewrite > 0 := by
      intro hp; exact ((goLen_pos_iff _).1 hp) h
    rw [if_neg hn, if_pos h]
  · have hp : goLen p.Rewrite > 0 := (goLen_pos_iff _).2 h
    simp only [hp, if_true, h, if_false, List.append_nil]
    split <;> rfl

theorem runLoop_paths (ps : List IngressPlugin) (st : LoopState) :
    (runLoop st ps).paths =
      st.paths ++ (ps.filter (fun p => decide (p.Rewrite = ""))).map pathOf := by
  induction ps generalizing st with
  | nil => simp [runLoop]
  | cons p rest ih =>
    have step : runLoop st (p :: rest) = runLoop (loopBody st p) rest := rfl
    rw [step, ih, loopBody_paths]
    by_cases h : p.Rewrite = "" <;> simp [h, List.filter_cons]

theorem pathRules_pulpIngressObject (m : Pulp) (ps : List IngressPlugin) :
    (pulpIngressObject m ps).pathRules =
      (ps.filter (fun p => decide (p.Rewrite = ""))).map pathOf := by
  simp [pulpIngressObject, Ingress.pathRules, runLoop_paths]

theorem defaultPlugins_filter (deps : Deps) (pulp : Pulp) :
    (defaultPlugins deps pulp).filter (fun p => decide (p.Rewrite = "")) =
      defaultPlugins deps pulp := by
  simp [defaultPlugins]

/-! ## C1 -/

/-- C1: the path rules of `pulpIngressObject m ps` are exactly the descriptors
of `ps` with an empty rewrite, in the same order, each turned into one
prefix-typed rule with the descriptor's path, service name and target port;
their number is the number of descriptors with an empty rewrite. -/
theorem pulpIngressObject_path_rules (m : Pulp) (ps : List IngressPlugin) :
    (pulpIngressObject m ps).pathRules =
        (ps.filter (fun p => decide (p.Rewrite = ""))).map (fun p =>
          { Path := p.Path
            PathType := some PathType.PathTypePrefix
            Backend := { Service := some { Name := p.ServiceName
                                           Port := { Name := p.TargetPort } } } })
      ∧ (pulpIngressObject m ps).pathRules.length =
          ps.countP (fun p => decide (p.Rewrite = "")) := by
  have h := pathRules_pulpIngressObject m ps
  refine ⟨?_, ?_⟩
  · rw [h]; rfl
  · rw [h, List.length_map, List.countP_eq_length_filter]

/-! ## The pod scan and the straight-line part of the controller -/

theorem scanPods_trace_log (items : List Pod) :
    ∀ a ∈ (scanPods items).trace, ∃ msg, a = Action.LogInfo msg := by
  induction items with
  | nil => simp [scanPods]
  | cons p rest ih =>
    unfold scanPods
    by_cases h : (p.Phase == "Running") = true
    · simp [h]
    · simp only [h]
      intro a ha
      simp only [Bool.false_eq_true, if_false, List.mem_append, List.mem_cons,
        List.mem_singleton, List.not_mem_nil, or_false] at ha
      rcases ha with (ha | ha) | ha
      · exact ⟨_, ha⟩
      · exact ⟨_, ha⟩
      · exact ih a ha

theorem scanPods_none (items : List Pod) (h : ∀ q ∈ items, q.Phase ≠ "Running") :
    (scanPods items).IsPodRunning = false := by
  induction items with
  | nil => rfl
  | cons p rest ih =>
    have hp : ¬ (p.Phase == "Running") = true := by
      simpa using h p (List.mem_cons_self _ _)
    unfold scanPods
    simp only [hp]
    exact ih (fun q hq => h q (List.mem_cons_of_mem _ hq))

theorem scanPods_first (pre post : List Pod) (p : Pod)
    (hpre : ∀ q ∈ pre, q.Phase ≠ "Running") (hp : p.Phase = "Running") :
    (scanPods (pre ++ p :: post)).IsPodRunning = true ∧
      (scanPods (pre ++ p :: post)).pod = p := by
  induction pre with
  | nil => simp [scanPods, hp]
  | cons q rest ih =>
    have hq : ¬ (q.Phase == "Running") = true := by
      simpa using hpre q (List.mem_cons_self _ _)
    have ih2 := ih (fun r hr => hpre r (List.mem_cons_of_mem _ hr))
    simp only [List.cons_append]
    unfold scanPods
    simp only [hq]
    exact ih2

theorem controller_after_exec (deps : Deps) (api : Cluster) (pulp : Pulp)
    (items : List Pod) (cmdOutput : String)
    (hlist : api.list pulp.Namespace (contentLabels pulp) = .ok items)
    (hrun : (scanPods items).IsPodRunning = true)
    (hexec : api.containerExec (scanPods items).pod ["/usr/bin/route_paths.py", pulp.Name]
      "content" (scanPods items).pod.Namespace = .ok cmdOutput) :
    pulpIngressController deps api pulp =
      reconcileIngress deps api pulp
        (mergePlugins deps pulp (deps.jsonUnmarshal cmdOutput))
        ([Action.List pulp.Namespace (contentLabels pulp)] ++ (scanPods items).trace ++
          [Action.ContainerExec (scanPods items).pod ["/usr/bin/route_paths.py", pulp.Name]
            "content" (scanPods items).pod.Namespace]) := by
  unfold pulpIngressController
  simp only [hlist, hrun, hexec]
  rfl

theorem reconcile_not_found_trace (deps : Deps) (api : Cluster) (pulp : Pulp)
    (plugins : List IngressPlugin) (trace : List Action) (e : GoError)
    (hget : api.get pulp.Name pulp.Namespace = some e) (hnf : e.IsNotFound = true) :
    Action.Create (SetControllerReference pulp (pulpIngressObject pulp plugins)) ∈
      (reconcileIngress deps api pulp plugins trace).trace := by
  unfold reconcileIngress
  simp only [hget, hnf, if_true]
  cases api.create (SetControllerReference pulp (pulpIngressObject pulp plugins)) with
  | some err => simp
  | none =>
    simp only [finishIngress]
    split <;> simp

theorem pathRules_SetControllerReference (owner : Pulp) (i : Ingress) :
    (SetControllerReference owner i).pathRules = i.pathRules := rfl

/-! ## C2 -/

/-- C2: in a pass that reaches the creation of the ingress (a running pod,
a successful execution with output `out`, a not-found lookup), the descriptor
list handed to `pulpIngressObject` is the four defaults followed by the
discovered list in its order, of length `4 + len`, with no deduplication: a
discovered descriptor with empty rewrite whose path equals a default's path
gives a second path rule with that path, after the default's rule. -/
theorem pulpIngressController_merge_no_dedup (deps : Deps) (api : Cluster) (pulp : Pulp)
    (items : List Pod) (out : String) (e : GoError)
    (hlist : api.list pulp.Namespace (contentLabels pulp) = .ok items)
    (hrun : (scanPods items).IsPodRunning = true)
    (hexec : api.containerExec (scanPods items).pod ["/usr/bin/route_paths.py", pulp.Name]
      "content" (scanPods items).pod.Namespace = .ok out)
    (hget : api.get pulp.Name pulp.Namespace = some e) (hnf : e.IsNotFound = true) :
    Action.Create (SetControllerReference pulp
        (pulpIngressObject pulp (defaultPlugins deps pulp ++ deps.jsonUnmarshal out))) ∈
        (pulpIngressController deps api pulp).trace
      ∧ (defaultPlugins deps pulp ++ deps.jsonUnmarshal out).length =
          4 + (deps.jsonUnmarshal out).length
      ∧ ∀ d ∈ deps.jsonUnmarshal out, ∀ p ∈ defaultPlugins deps pulp,
          d.Rewrite = "" → p.Path = d.Path →
          (pathOf p).Path = d.Path ∧ (pathOf d).Path = d.Path ∧
          List.Sublist [pathOf p, pathOf d]
            (SetControllerReference pulp (pulpIngressObject pulp
              (defaultPlugins deps pulp ++ deps.jsonUnmarshal out))).pathRules := by
  refine ⟨?_, ?_, ?_⟩
  · rw [controller_after_exec deps api pulp items out hlist hrun hexec]
    exact reconcile_not_found_trace deps api pulp _ _ e hget hnf
  · rw [List.length_append]; rfl
  · intro d hd p hp hrw hpath
    refine ⟨hpath, rfl, ?_⟩
    rw [pathRules_SetControllerReference, pathRules_pulpIngressObject, List.filter_append,
      defaultPlugins_filter, List.map_append]
    have h1 : List.Sublist [pathOf p] ((defaultPlugins deps pulp).map pathOf) :=
      List.singleton_sublist.2 (List.mem_map_of_mem _ hp)
    have h2 : List.Sublist [pathOf d]
        (((deps.jsonUnmarshal out).filter (fun p => decide (p.Rewrite = ""))).map pathOf) :=
      List.singleton_sublist.2
        (List.mem_map_of_mem _ (List.mem_filter.2 ⟨hd, by simpa using hrw⟩))
    exact List.Sublist.append h1 h2

/-- C2, on the sample cluster: the discovered root descriptor repeats the
default root path and both rules are present, the default's first. -/
theorem pulpIngressController_merge_no_dedup_witness :
    Action.Create (SetControllerReference samplePulp
        (pulpIngressObject samplePulp
          (defaultPlugins sampleDeps samplePulp ++ sampleDeps.jsonUnmarshal "[]"))) ∈
        (pulpIngressController sampleDeps freshCluster samplePulp).trace
      ∧ (defaultPlugins sampleDeps samplePulp ++ sampleDeps.jsonUnmarshal "[]").length =
          4 + (sampleDeps.jsonUnmarshal "[]").length
      ∧ List.Sublist
          [pathOf { Name := "pulp", Path := "/", TargetPort := "api-24817",
                    ServiceName := "pulp-api-svc", Rewrite := "" },
           pathOf sampleRootPlugin]
          (SetControllerReference samplePulp (pulpIngressObject samplePulp
            (defaultPlugins sampleDeps samplePulp ++
              sampleDeps.jsonUnmarshal "[]"))).pathRules := by
  have h := pulpIngressController_merge_no_dedup sampleDeps freshCluster samplePulp
    [pendingPod, runningPod, otherRunningPod] "[]" notFoundErr rfl (by decide) rfl rfl rfl
  refine ⟨h.1, h.2.1, ?_⟩
  exact (h.2.2 sampleRootPlugin (by simp [sampleDeps])
    { Name := "pulp", Path := "/", TargetPort := "api-24817",
      ServiceName := "pulp-api-svc", Rewrite := "" }
    (by decide) rfl rfl).2.2

/-! ## C3 -/

/-- C3: for a resource named `n` with content-path-prefix setting `c` and
API-root setting `a`, the default list has exactly four entries (in source
order: content, API v3, auth, root): `/` on `n-api-svc` port `api-24817`, `c` on
`n-content-svc`, `a ++ "api/v3/"` on `n-api-svc` port `api-24817`, and
`/auth/login/` on `n-api-svc` port `api-24817`; none carries a rewrite, and with
no discovered descriptor the ingress has exactly their four path rules. -/
theorem defaultPlugins_four_entries (deps : Deps) (pulp : Pulp) :
    ∃ content apiV3 auth root : IngressPlugin,
      defaultPlugins deps pulp = [content, apiV3, auth, root]
      ∧ (root.Path = "/" ∧ root.ServiceName = pulp.Name ++ "-api-svc" ∧
          root.TargetPort = "api-24817")
      ∧ (content.Path = deps.getPulpSetting pulp "content_path_prefix" ∧
          content.ServiceName = pulp.Name ++ "-content-svc")
      ∧ (apiV3.Path = deps.getPulpSetting pulp "api_root" ++ "api/v3/" ∧
          apiV3.ServiceName = pulp.Name ++ "-api-svc" ∧ apiV3.TargetPort = "api-24817")
      ∧ (auth.Path = "/auth/login/" ∧ auth.ServiceName = pulp.Name ++ "-api-svc" ∧
          auth.TargetPort = "api-24817")
      ∧ (content.Rewrite = "" ∧ apiV3.Rewrite = "" ∧ auth.Rewrite = "" ∧ root.Rewrite = "")
      ∧ (pulpIngressObject pulp (mergePlugins deps pulp [])).pathRules =
          [pathOf content, pathOf apiV3, pathOf auth, pathOf root] := by
  refine ⟨_, _, _, _, rfl, ⟨rfl, rfl, rfl⟩, ⟨rfl, rfl⟩, ⟨rfl, rfl, rfl⟩, ⟨rfl, rfl, rfl⟩,
    ⟨rfl, rfl, rfl, rfl⟩, ?_⟩
  rw [pathRules_pulpIngressObject, mergePlugins, List.append_nil, defaultPlugins_filter]
  rfl

/-! ## C4 -/

/-- C4 as stated fails: on the sample resource the default descriptor bound to
`pulp-content-svc` does not have target port `api-24816`. -/
theorem content_port_is_not_api_24816 :
    ¬ (∀ p ∈ defaultPlugins sampleDeps samplePulp,
        p.ServiceName = samplePulp.Name ++ "-content-svc" → p.TargetPort = "api-24816") := by
  intro h
  have h1 := h { Name := "pulp-content", Path := "/pulp/content/",
                 TargetPort := "content-24816", ServiceName := "pulp-content-svc",
                 Rewrite := "" } (by decide) (by decide)
  exact absurd h1 (by decide)

/-- C4, amended: the default descriptor bound to `n-content-svc` has target port
`content-24816`, and for every discovered list its path rule is in the
constructed ingress, bound to service `n-content-svc` on port `content-24816`. -/
theorem content_port_is_content_24816 (deps : Deps) (pulp : Pulp)
    (ds : List IngressPlugin) (p : IngressPlugin)
    (hp : p ∈ defaultPlugins deps pulp)
    (hs : p.ServiceName = pulp.Name ++ "-content-svc") :
    p.TargetPort = "content-24816"
      ∧ pathOf p ∈ (pulpIngressObject pulp (mergePlugins deps pulp ds)).pathRules
      ∧ (pathOf p).Backend.Service =
          some { Name := pulp.Name ++ "-content-svc", Port := { Name := "content-24816" } } := by
  have hne : ¬ (pulp.Name ++ "-api-svc" = pulp.Name ++ "-content-svc") := by
    intro h
    exact absurd (string_append_left_cancel _ _ _ h) (by decide)
  have hmem : pathOf p ∈ (pulpIngressObject pulp (mergePlugins deps pulp ds)).pathRules := by
    rw [pathRules_pulpIngressObject, mergePlugins, List.filter_append, defaultPlugins_filter,
      List.map_append]
    exact List.mem_append_left _ (List.mem_map_of_mem _ hp)
  simp only [defaultPlugins, List.mem_cons, List.mem_singleton, List.not_mem_nil,
    or_false] at hp
  rcases hp with rfl | rfl | rfl | rfl
  · exact ⟨rfl, hmem, rfl⟩
  · exact absurd hs hne
  · exact absurd hs hne
  · exact absurd hs hne

/-- C4, amended, on the sample resource with one discovered descriptor. -/
theorem content_port_is_content_24816_witness :
    ({ Name := "pulp-content", Path := "/pulp/content/", TargetPort := "content-24816",
       ServiceName := "pulp-content-svc", Rewrite := "" } : IngressPlugin).TargetPort =
        "content-24816"
      ∧ pathOf { Name := "pulp-content", Path := "/pulp/content/",
                 TargetPort := "content-24816", ServiceName := "pulp-content-svc",
                 Rewrite := "" } ∈
          (pulpIngressObject samplePulp
            (mergePlugins sampleDeps samplePulp [sampleRootPlugin])).pathRules
      ∧ (pathOf { Name := "pulp-content", Path := "/pulp/content/",
                  TargetPort := "content-24816", ServiceName := "pulp-content-svc",
                  Rewrite := "" }).Backend.Service =
          some { Name := samplePulp.Name ++ "-content-svc",
                 Port := { Name := "content-24816" } } :=
  content_port_is_content_24816 sampleDeps samplePulp [sampleRootPlugin]
    { Name := "pulp-content", Path := "/pulp/content/", TargetPort := "content-24816",
      ServiceName := "pulp-content-svc", Rewrite := "" } (by decide) (by decide)

/-! ## The annotation map and the rewrite fold -/

theorem StringMap.get_set_same (m : StringMap) (k v : String) :
    (StringMap.set m k v).get k = v := by
  induction m with
  | nil => simp [StringMap.set, StringMap.get]
  | cons kv rest ih =>
    obtain ⟨k', v'⟩ := kv
    by_cases h : k' = k
    · simp [StringMap.set, StringMap.get, h]
    · have ih2 := ih
      simp only [StringMap.get] at ih2
      simp [StringMap.set, StringMap.get, h, ih2]

theorem StringMap.get_set_other (m : StringMap) (k v j : String) (hj : j ≠ k) :
    (StringMap.set m k v).get j = StringMap.get m j := by
  induction m with
  | nil =>
    have : ¬ k = j := fun h => hj h.symm
    simp [StringMap.set, StringMap.get, this]
  | cons kv rest ih =>
    obtain ⟨k', v'⟩ := kv
    have hkj : ¬ k = j := fun h => hj h.symm
    by_cases h : k' = k
    · subst h
      simp [StringMap.set, StringMap.get, hkj]
    · by_cases h2 : k' = j
      · subst h2
        simp [StringMap.set, StringMap.get, hj]
      · have ih2 := ih
        simp only [StringMap.get] at ih2
        simp [StringMap.set, StringMap.get, h, h2, ih2]

theorem containsAt_self (s : List Char) : containsAt s s = true := by
  cases s with
  | nil => rfl
  | cons c cs => simp [containsAt]

theorem stringsContains_self (s : String) : stringsContains s s = true :=
  containsAt_self s.data

theorem runLoop_append (st : LoopState) (xs ys : List IngressPlugin) :
    runLoop st (xs ++ ys) = runLoop (runLoop st xs) ys := by
  simp [runLoop, List.foldl_append]

theorem loopBody_rewrite (st : LoopState) (p : IngressPlugin) (hp : p.Rewrite ≠ "") :
    loopBody st p =
      if stringsContains (st.annotations.get snippetKey) (rewriteOf p) then st
      else { st with annotations := st.annotations.set snippetKey (rewriteOf p) } := by
  have h : goLen p.Rewrite > 0 := (goLen_pos_iff _).2 hp
  unfold loopBody
  rw [if_pos h]

theorem loopBody_no_rewrite (st : LoopState) (p : IngressPlugin) (hp : p.Rewrite = "") :
    (loopBody st p).annotations = st.annotations := by
  have h : ¬ goLen p.Rewrite > 0 := fun h => ((goLen_pos_iff _).1 h) hp
  unfold loopBody
  rw [if_neg h]

theorem runLoop_no_rewrite (ps : List IngressPlugin) (st : LoopState)
    (h : ∀ q ∈ ps, q.Rewrite = "") : (runLoop st ps).annotations = st.annotations := by
  induction ps generalizing st with
  | nil => rfl
  | cons p rest ih =>
    have step : runLoop st (p :: rest) = runLoop (loopBody st p) rest := rfl
    rw [step, ih _ (fun q hq => h q (List.mem_cons_of_mem _ hq)),
      loopBody_no_rewrite st p (h p (List.mem_cons_self _ _))]

theorem annotation_after_last_rewrite (st : LoopState) (pre post : List IngressPlugin)
    (p : IngressPlugin) (hpost : ∀ q ∈ post, q.Rewrite = "") :
    (runLoop st (pre ++ p :: post)).annotations = (loopBody (runLoop st pre) p).annotations := by
  have step : runLoop (runLoop st pre) (p :: post) =
      runLoop (loopBody (runLoop st pre) p) post := rfl
  rw [runLoop_append, step, runLoop_no_rewrite post _ hpost]

/-! ## C5 -/

/-- C5 as stated fails: after `outerRewritePlugin`, the rewrite string of
`innerRewritePlugin` differs from the annotation's current value, yet its fold
is skipped, and the final annotation value is not the rewrite string built from
the last rewrite-bearing descriptor. -/
theorem rewrite_fold_skips_on_substring :
    innerRewritePlugin.Rewrite ≠ ""
      ∧ rewriteOf innerRewritePlugin ≠
          (runLoop { annotations := initialAnnotations samplePulp, paths := [] }
            [outerRewritePlugin]).annotations.get snippetKey
      ∧ loopBody (runLoop { annotations := initialAnnotations samplePulp, paths := [] }
            [outerRewritePlugin]) innerRewritePlugin =
          runLoop { annotations := initialAnnotations samplePulp, paths := [] }
            [outerRewritePlugin]
      ∧ (pulpIngressObject samplePulp
            [outerRewritePlugin, innerRewritePlugin]).ObjectMeta.Annotations.get snippetKey ≠
          rewriteOf innerRewritePlugin := by
  decide

/-- C5, amended: the fold of a rewrite-bearing descriptor is skipped exactly
when the annotation's current value contains its rewrite string as a substring,
and otherwise the rewrite string overwrites the value. So when `p` is the last
rewrite-bearing descriptor of the list, the final annotation value is the value
before `p` if that contains the rewrite string of `p`, and the rewrite string
of `p` otherwise; in both cases it contains the rewrite string of `p`. -/
theorem rewrite_fold_contains_last (m : Pulp) (st : LoopState)
    (pre post : List IngressPlugin) (p : IngressPlugin)
    (hp : p.Rewrite ≠ "") (hpost : ∀ q ∈ post, q.Rewrite = "") :
    (stringsContains (st.annotations.get snippetKey) (rewriteOf p) = true →
        loopBody st p = st)
      ∧ (stringsContains (st.annotations.get snippetKey) (rewriteOf p) = false →
          (loopBody st p).annotations.get snippetKey = rewriteOf p ∧
          (loopBody st p).paths = st.paths)
      ∧ (pulpIngressObject m (pre ++ p :: post)).ObjectMeta.Annotations.get snippetKey =
          (if stringsContains
                ((pulpIngressObject m pre).ObjectMeta.Annotations.get snippetKey)
                (rewriteOf p)
            then (pulpIngressObject m pre).ObjectMeta.Annotations.get snippetKey
            else rewriteOf p)
      ∧ stringsContains
          ((pulpIngressObject m (pre ++ p :: post)).ObjectMeta.Annotations.get snippetKey)
          (rewriteOf p) = true := by
  have hfinal : (pulpIngressObject m (pre ++ p :: post)).ObjectMeta.Annotations.get snippetKey =
      (if stringsContains
            ((pulpIngressObject m pre).ObjectMeta.Annotations.get snippetKey) (rewriteOf p)
        then (pulpIngressObject m pre).ObjectMeta.Annotations.get snippetKey
        else rewriteOf p) := by
    simp only [pulpIngressObject]
    rw [annotation_after_last_rewrite _ pre post p hpost, loopBody_rewrite _ p hp]
    split
    · rfl
    · exact StringMap.get_set_same _ _ _
  refine ⟨?_, ?_, hfinal, ?_⟩
  · intro h
    rw [loopBody_rewrite st p hp, if_pos h]
  · intro h
    rw [loopBody_rewrite st p hp, h]
    exact ⟨StringMap.get_set_same _ _ _, rfl⟩
  · rw [hfinal]
    split
    · assumption
    · exact stringsContains_self _

/-- C5, amended, on the sample resource: after `outerRewritePlugin` the fold of
`innerRewritePlugin` is skipped and the final value is the outer rewrite
string, which contains the inner one. -/
theorem rewrite_fold_contains_last_witness :
    (pulpIngressObject samplePulp
        ([outerRewritePlugin] ++ innerRewritePlugin :: [sampleRootPlugin])
      ).ObjectMeta.Annotations.get snippetKey = "rewrite ^/x* rewrite ^/y* /z;;"
      ∧ stringsContains
          ((pulpIngressObject samplePulp
            ([outerRewritePlugin] ++ innerRewritePlugin :: [sampleRootPlugin])
            ).ObjectMeta.Annotations.get snippetKey)
          (rewriteOf innerRewritePlugin) = true := by
  have h := rewrite_fold_contains_last samplePulp
    { annotations := initialAnnotations samplePulp, paths := [] }
    [outerRewritePlugin] [sampleRootPlugin] innerRewritePlugin (by decide) (by decide)
  exact ⟨by decide, h.2.2.2⟩

/-! ## C6 -/

theorem StringMap.has_set_other (m : StringMap) (k v j : String) (hj : j ≠ k) :
    (StringMap.set m k v).has j = StringMap.has m j := by
  induction m with
  | nil =>
    have : ¬ k = j := fun h => hj h.symm
    simp [StringMap.set, StringMap.has, this]
  | cons kv rest ih =>
    obtain ⟨k', v'⟩ := kv
    have hkj : ¬ k = j := fun h => hj h.symm
    by_cases h : k' = k
    · subst h
      simp [StringMap.set, StringMap.has, hkj]
    · by_cases h2 : k' = j
      · subst h2
        simp [StringMap.set, StringMap.has, hj]
      · have ih2 := ih
        simp only [StringMap.has] at ih2
        simp [StringMap.set, StringMap.has, h, h2, ih2]

theorem loopBody_frame (st : LoopState) (p : IngressPlugin) (k : String)
    (hk : k ≠ snippetKey) :
    (loopBody st p).annotations.get k = st.annotations.get k ∧
      (loopBody st p).annotations.has k = st.annotations.has k := by
  unfold loopBody
  split
  · simp only []
    split
    · exact ⟨rfl, rfl⟩
    · exact ⟨StringMap.get_set_other _ _ _ _ hk, StringMap.has_set_other _ _ _ _ hk⟩
  · exact ⟨rfl, rfl⟩

theorem runLoop_frame (ps : List IngressPlugin) (st : LoopState) (k : String)
    (hk : k ≠ snippetKey) :
    (runLoop st ps).annotations.get k = st.annotations.get k ∧
      (runLoop st ps).annotations.has k = st.annotations.has k := by
  induction ps generalizing st with
  | nil => exact ⟨rfl, rfl⟩
  | cons p rest ih =>
    have step : runLoop st (p :: rest) = runLoop (loopBody st p) rest := rfl
    rw [step]
    have h1 := ih (loopBody st p)
    have h2 := loopBody_frame st p k hk
    exact ⟨h1.1.trans h2.1, h1.2.trans h2.2⟩

/-- C6: for every resource `m` and every descriptor list `ps`, the ingress has
name `m.Name`, namespace `m.Namespace`, exactly one rule, whose host is
`m.Spec.IngressHost`, and its annotations bind the proxy body size to `0`, the
proxy read, connect and send timeouts to `120s` and the HAProxy timeout to
`m.Spec.HAProxyTimeout`, whatever the descriptors are. -/
theorem pulpIngressObject_frame (m : Pulp) (ps : List IngressPlugin) :
    (pulpIngressObject m ps).ObjectMeta.Name = m.Name
      ∧ (pulpIngressObject m ps).ObjectMeta.Namespace = m.Namespace
      ∧ (pulpIngressObject m ps).Spec.Rules.map (fun r => r.Host) = [m.Spec.IngressHost]
      ∧ ((pulpIngressObject m ps).ObjectMeta.Annotations.has
            "nginx.ingress.kubernetes.io/proxy-body-size" = true ∧
          (pulpIngressObject m ps).ObjectMeta.Annotations.get
            "nginx.ingress.kubernetes.io/proxy-body-size" = "0")
      ∧ ((pulpIngressObject m ps).ObjectMeta.Annotations.has
            "nginx.ingress.kubernetes.io/proxy-read-timeout" = true ∧
          (pulpIngressObject m ps).ObjectMeta.Annotations.get
            "nginx.ingress.kubernetes.io/proxy-read-timeout" = "120s")
      ∧ ((pulpIngressObject m ps).ObjectMeta.Annotations.has
            "nginx.ingress.kubernetes.io/proxy-connect-timeout" = true ∧
          (pulpIngressObject m ps).ObjectMeta.Annotations.get
            "nginx.ingress.kubernetes.io/proxy-connect-timeout" = "120s")
      ∧ ((pulpIngressObject m ps).ObjectMeta.Annotations.has
            "nginx.ingress.kubernetes.io/proxy-send-timeout" = true ∧
          (pulpIngressObject m ps).ObjectMeta.Annotations.get
            "nginx.ingress.kubernetes.io/proxy-send-timeout" = "120s")
      ∧ ((pulpIngressObject m ps).ObjectMeta.Annotations.has
            "haproxy.router.openshift.io/timeout" = true ∧
          (pulpIngressObject m ps).ObjectMeta.Annotations.get
            "haproxy.router.openshift.io/timeout" = m.Spec.HAProxyTimeout) := by
  have frame : ∀ k : String, k ≠ snippetKey →
      (pulpIngressObject m ps).ObjectMeta.Annotations.get k = (initialAnnotations m).get k ∧
      (pulpIngressObject m ps).ObjectMeta.Annotations.has k = (initialAnnotations m).has k :=
    fun k hk => runLoop_frame ps _ k hk
  refine ⟨rfl, rfl, rfl, ?_, ?_, ?_, ?_, ?_⟩
  · obtain ⟨h1, h2⟩ := frame "nginx.ingress.kubernetes.io/proxy-body-size" (by decide)
    rw [h1, h2]; exact ⟨rfl, rfl⟩
  · obtain ⟨h1, h2⟩ := frame "nginx.ingress.kubernetes.io/proxy-read-timeout" (by decide)
    rw [h1, h2]; exact ⟨rfl, rfl⟩
  · obtain ⟨h1, h2⟩ := frame "nginx.ingress.kubernetes.io/proxy-connect-timeout" (by decide)
    rw [h1, h2]; exact ⟨rfl, rfl⟩
  · obtain ⟨h1, h2⟩ := frame "nginx.ingress.kubernetes.io/proxy-send-timeout" (by decide)
    rw [h1, h2]; exact ⟨rfl, rfl⟩
  · obtain ⟨h1, h2⟩ := frame "haproxy.router.openshift.io/timeout" (by decide)
    rw [h1, h2]; exact ⟨rfl, rfl⟩

/-! ## C7 -/

/-- C7: when the list call succeeds and no listed pod is `Running` (also for
the empty list), the pass returns a nil error with a requeue delay of five
seconds, and makes no remote execution, no ingress get or create and no status
update. -/
theorem pulpIngressController_no_running_pod (deps : Deps) (api : Cluster) (pulp : Pulp)
    (items : List Pod)
    (hlist : api.list pulp.Namespace (contentLabels pulp) = .ok items)
    (hnone : ∀ q ∈ items, q.Phase ≠ "Running") :
    (pulpIngressController deps api pulp).err = none
      ∧ (pulpIngressController deps api pulp).result =
          { Requeue := false, RequeueAfter := 5 * Second }
      ∧ (pulpIngressController deps api pulp).result.RequeueAfter = 5000000000
      ∧ ∀ a ∈ (pulpIngressController deps api pulp).trace,
          a.isExec = false ∧ a.isGet = false ∧ a.isCreate = false ∧
            a.isUpdateStatus = false := by
  have hrun := scanPods_none items hnone
  have hout : pulpIngressController deps api pulp =
      { result := { RequeueAfter := 5 * Second }, err := none,
        trace := [Action.List pulp.Namespace (contentLabels pulp)] ++ (scanPods items).trace ++
          [Action.LogInfo "Content pod isn't running yet!"] } := by
    unfold pulpIngressController
    simp only [hlist, hrun]
    rfl
  rw [hout]
  refine ⟨rfl, rfl, by norm_num [Second], ?_⟩
  intro a ha
  simp only [List.mem_append, List.mem_singleton] at ha
  rcases ha with (ha | ha) | ha
  · subst ha; exact ⟨rfl, rfl, rfl, rfl⟩
  · obtain ⟨msg, rfl⟩ := scanPods_trace_log items a ha
    exact ⟨rfl, rfl, rfl, rfl⟩
  · subst ha; exact ⟨rfl, rfl, rfl, rfl⟩

/-- C7, on a cluster whose only content pod is pending. -/
theorem pulpIngressController_no_running_pod_witness :
    (pulpIngressController sampleDeps pendingCluster samplePulp).err = none
      ∧ (pulpIngressController sampleDeps pendingCluster samplePulp).result =
          { Requeue := false, RequeueAfter := 5 * Second }
      ∧ (pulpIngressController sampleDeps pendingCluster samplePulp).result.RequeueAfter =
          5000000000
      ∧ ∀ a ∈ (pulpIngressController sampleDeps pendingCluster samplePulp).trace,
          a.isExec = false ∧ a.isGet = false ∧ a.isCreate = false ∧
            a.isUpdateStatus = false :=
  pulpIngressController_no_running_pod sampleDeps pendingCluster samplePulp [pendingPod] rfl
    (by decide)

/-! ## The branches after the remote execution -/

theorem reconcileIngress_trace (deps : Deps) (api : Cluster) (pulp : Pulp)
    (plugins : List IngressPlugin) (trace : List Action) :
    ∃ tail, (reconcileIngress deps api pulp plugins trace).trace = trace ++ tail ∧
      ∀ a ∈ tail, a.isExec = false := by
  unfold reconcileIngress
  simp only []
  cases api.get pulp.Name pulp.Namespace with
  | none =>
    simp only [finishIngress]
    split
    · refine ⟨_, List.append_assoc _ _ _, ?_⟩
      intro a ha
      simp only [List.mem_append, List.mem_cons, List.mem_singleton, List.not_mem_nil,
        or_false] at ha
      rcases ha with ha | ha | ha <;> subst ha <;> rfl
    · refine ⟨_, rfl, ?_⟩
      intro a ha
      simp only [List.mem_singleton] at ha
      subst ha; rfl
  | some e =>
    simp only []
    split
    · cases api.create (SetControllerReference pulp (pulpIngressObject pulp plugins)) with
      | some ce =>
        refine ⟨_, by simp only [List.append_assoc]; rfl, ?_⟩
        intro a ha
        simp only [List.mem_append, List.mem_cons, List.mem_singleton, List.not_mem_nil,
          or_false] at ha
        rcases ha with ha | (ha | ha | ha) | (ha | ha | ha) <;> subst ha <;> rfl
      | none =>
        simp only [finishIngress]
        split
        · refine ⟨_, by simp only [List.append_assoc]; rfl, ?_⟩
          intro a ha
          simp only [List.mem_append, List.mem_cons, List.mem_singleton, List.not_mem_nil,
            or_false] at ha
          rcases ha with ha | (ha | ha | ha) | (ha | ha) <;> subst ha <;> rfl
        · refine ⟨_, by simp only [List.append_assoc]; rfl, ?_⟩
          intro a ha
          simp only [List.mem_append, List.mem_cons, List.mem_singleton, List.not_mem_nil,
            or_false] at ha
          rcases ha with ha | (ha | ha | ha) <;> subst ha <;> rfl
    · refine ⟨_, by simp only [List.append_assoc]; rfl, ?_⟩
      intro a ha
      simp only [List.mem_append, List.mem_cons, List.mem_singleton, List.not_mem_nil,
        or_false] at ha
      rcases ha with ha | ha <;> subst ha <;> rfl

theorem controller_exec_failed (deps : Deps) (api : Cluster) (pulp : Pulp)
    (items : List Pod) (e : GoError)
    (hlist : api.list pulp.Namespace (contentLabels pulp) = .ok items)
    (hrun : (scanPods items).IsPodRunning = true)
    (hexec : api.containerExec (scanPods items).pod ["/usr/bin/route_paths.py", pulp.Name]
      "content" (scanPods items).pod.Namespace = .error e) :
    pulpIngressController deps api pulp =
      { result := {}, err := some e,
        trace := [Action.List pulp.Namespace (contentLabels pulp)] ++ (scanPods items).trace ++
          [Action.ContainerExec (scanPods items).pod ["/usr/bin/route_paths.py", pulp.Name]
            "content" (scanPods items).pod.Namespace] ++
          [ Action.LogError ("Failed to get ingresss from " ++ (scanPods items).pod.Name),
            Action.UpdateStatus ConditionStatus.ConditionFalse
              (pulp.Spec.DeploymentType ++ "-Ingress-Ready")
              "Failed to get ingresss!" ("FailedGet" ++ (scanPods items).pod.Name) ] } := by
  unfold pulpIngressController
  simp only [hlist, hrun, hexec]
  rfl

theorem reconcile_create_failed (deps : Deps) (api : Cluster) (pulp : Pulp)
    (plugins : List IngressPlugin) (trace : List Action) (e ce : GoError)
    (hget : api.get pulp.Name pulp.Namespace = some e) (hnf : e.IsNotFound = true)
    (hcreate : api.create (SetControllerReference pulp (pulpIngressObject pulp plugins)) =
      some ce) :
    reconcileIngress deps api pulp plugins trace =
      { result := {}, err := some ce,
        trace := trace ++ [Action.Get pulp.Name pulp.Namespace] ++
          [ Action.LogInfo "Creating a new ingress",
            Action.UpdateStatus ConditionStatus.ConditionFalse
              (pulp.Spec.DeploymentType ++ "-Ingress-Ready")
              "CreatingIngress" ("Creating " ++ pulp.Name ++ "-ingress"),
            Action.Create (SetControllerReference pulp (pulpIngressObject pulp plugins)) ] ++
          [ Action.LogError "Failed to create new ingress",
            Action.UpdateStatus ConditionStatus.ConditionFalse
              (pulp.Spec.DeploymentType ++ "-Ingress-Ready")
              "ErrorCreatingIngress"
              ("Failed to create " ++ pulp.Name ++ "-ingress: " ++ ce.Error),
            Action.Event "Warning" "Failed" "Failed to create new ingress" ] } := by
  unfold reconcileIngress
  simp only [hget, hnf, hcreate, if_true]

theorem reconcile_get_failed (deps : Deps) (api : Cluster) (pulp : Pulp)
    (plugins : List IngressPlugin) (trace : List Action) (e : GoError)
    (hget : api.get pulp.Name pulp.Namespace = some e) (hnf : e.IsNotFound = false) :
    reconcileIngress deps api pulp plugins trace =
      { result := {}, err := some e,
        trace := trace ++ [Action.Get pulp.Name pulp.Namespace] ++
          [Action.LogError "Failed to get ingress"] } := by
  unfold reconcileIngress
  simp only [hget, hnf]
  rfl

/-! ## C8 -/

/-- C8: when the listed pods contain a `Running` pod, the introspection command
is executed once, in the first `Running` pod of the list, with the resource
name as its only argument; if the execution fails, the pass calls the status
tracker with Ingress-Ready `False` and a reason, returns the execution error,
and neither fetches nor creates the ingress. -/
theorem pulpIngressController_exec_first_running (deps : Deps) (api : Cluster)
    (pulp : Pulp) (pre post : List Pod) (p : Pod)
    (hlist : api.list pulp.Namespace (contentLabels pulp) = .ok (pre ++ p :: post))
    (hpre : ∀ q ∈ pre, q.Phase ≠ "Running") (hp : p.Phase = "Running") :
    Action.ContainerExec p ["/usr/bin/route_paths.py", pulp.Name] "content" p.Namespace ∈
        (pulpIngressController deps api pulp).trace
      ∧ (∀ a ∈ (pulpIngressController deps api pulp).trace, a.isExec = true →
          a = Action.ContainerExec p ["/usr/bin/route_paths.py", pulp.Name] "content"
            p.Namespace)
      ∧ ∀ e, api.containerExec p ["/usr/bin/route_paths.py", pulp.Name] "content"
            p.Namespace = .error e →
          (pulpIngressController deps api pulp).err = some e
          ∧ (pulpIngressController deps api pulp).result = {}
          ∧ Action.UpdateStatus ConditionStatus.ConditionFalse
              (pulp.Spec.DeploymentType ++ "-Ingress-Ready")
              "Failed to get ingresss!" ("FailedGet" ++ p.Name) ∈
              (pulpIngressController deps api pulp).trace
          ∧ ∀ a ∈ (pulpIngressController deps api pulp).trace,
              a.isGet = false ∧ a.isCreate = false := by
  obtain ⟨hrun, hpod⟩ := scanPods_first pre post p hpre hp
  have hlog := scanPods_trace_log (pre ++ p :: post)
  cases hexec : api.containerExec p ["/usr/bin/route_paths.py", pulp.Name] "content"
      p.Namespace with
  | error e =>
    have hout := controller_exec_failed deps api pulp (pre ++ p :: post) e hlist hrun
      (by rw [hpod]; exact hexec)
    rw [hpod] at hout
    rw [hout]
    refine ⟨by simp, ?_, ?_⟩
    · intro a ha hx
      simp only [List.mem_append, List.mem_cons, List.mem_singleton, List.not_mem_nil,
        or_false] at ha
      rcases ha with ((ha | ha) | ha) | (ha | ha)
      · subst ha; exact absurd hx (by simp [Action.isExec])
      · obtain ⟨msg, rfl⟩ := hlog a ha
        exact absurd hx (by simp [Action.isExec])
      · exact ha
      · subst ha; exact absurd hx (by simp [Action.isExec])
      · subst ha; exact absurd hx (by simp [Action.isExec])
    · intro e2 he2
      have hee : e = e2 := by injection he2
      subst hee
      refine ⟨rfl, rfl, by simp, ?_⟩
      intro a ha
      simp only [List.mem_append, List.mem_cons, List.mem_singleton, List.not_mem_nil,
        or_false] at ha
      rcases ha with ((ha | ha) | ha) | (ha | ha)
      · subst ha; exact ⟨rfl, rfl⟩
      · obtain ⟨msg, rfl⟩ := hlog a ha
        exact ⟨rfl, rfl⟩
      · subst ha; exact ⟨rfl, rfl⟩
      · subst ha; exact ⟨rfl, rfl⟩
      · subst ha; exact ⟨rfl, rfl⟩
  | ok out =>
    have hout := controller_after_exec deps api pulp (pre ++ p :: post) out hlist hrun
      (by rw [hpod]; exact hexec)
    rw [hpod] at hout
    obtain ⟨tail, htail, hno⟩ := reconcileIngress_trace deps api pulp
      (mergePlugins deps pulp (deps.jsonUnmarshal out))
      ([Action.List pulp.Namespace (contentLabels pulp)] ++
        (scanPods (pre ++ p :: post)).trace ++
        [Action.ContainerExec p ["/usr/bin/route_paths.py", pulp.Name] "content" p.Namespace])
    rw [hout, htail]
    refine ⟨by simp, ?_, ?_⟩
    · intro a ha hx
      simp only [List.mem_append, List.mem_cons, List.mem_singleton, List.not_mem_nil,
        or_false] at ha
      rcases ha with ((ha | ha) | ha) | ha
      · subst ha; exact absurd hx (by simp [Action.isExec])
      · obtain ⟨msg, rfl⟩ := hlog a ha
        exact absurd hx (by simp [Action.isExec])
      · exact ha
      · rw [hno a ha] at hx
        exact absurd hx (by decide)
    · intro e he
      exact absurd he (by simp)

/-- C8, on a cluster with a pending pod followed by two running pods, where the
execution fails: the command runs in the first running pod only. -/
theorem pulpIngressController_exec_first_running_witness :
    Action.ContainerExec runningPod ["/usr/bin/route_paths.py", "pulp"] "content" "ns" ∈
        (pulpIngressController sampleDeps execFailsCluster samplePulp).trace
      ∧ (∀ a ∈ (pulpIngressController sampleDeps execFailsCluster samplePulp).trace,
          a.isExec = true →
          a = Action.ContainerExec runningPod ["/usr/bin/route_paths.py", "pulp"] "content"
            "ns")
      ∧ (pulpIngressController sampleDeps execFailsCluster samplePulp).err =
          some { Error := "container not ready", IsNotFound := false }
      ∧ Action.UpdateStatus ConditionStatus.ConditionFalse "pulp-Ingress-Ready"
          "Failed to get ingresss!" "FailedGetcontent-1" ∈
          (pulpIngressController sampleDeps execFailsCluster samplePulp).trace
      ∧ ∀ a ∈ (pulpIngressController sampleDeps execFailsCluster samplePulp).trace,
          a.isGet = false ∧ a.isCreate = false := by
  have h := pulpIngressController_exec_first_running sampleDeps execFailsCluster samplePulp
    [pendingPod] [otherRunningPod] runningPod rfl (by decide) rfl
  have h2 := h.2.2 { Error := "container not ready", IsNotFound := false } rfl
  exact ⟨h.1, h.2.1, h2.1, h2.2.2.1, h2.2.2.2⟩

/-! ## C9 -/

/-- C9 as stated fails: on a cluster whose list call fails, the pass does not
return the list error; it returns a nil error. -/
theorem list_error_is_not_returned :
    listFailsCluster.list samplePulp.Namespace (contentLabels samplePulp) =
        .error { Error := "etcd timeout", IsNotFound := false }
      ∧ (pulpIngressController sampleDeps listFailsCluster samplePulp).err ≠
          some { Error := "etcd timeout", IsNotFound := false } := by
  refine ⟨rfl, ?_⟩
  decide

/-- C9, amended: whenever the pod list call fails, the pass logs the failure
and returns a nil error with a requeue delay of one minute, making no other
call. -/
theorem pulpIngressController_list_error (deps : Deps) (api : Cluster) (pulp : Pulp)
    (e : GoError)
    (hlist : api.list pulp.Namespace (contentLabels pulp) = .error e) :
    (pulpIngressController deps api pulp).err = none
      ∧ (pulpIngressController deps api pulp).result =
          { Requeue := false, RequeueAfter := Minute }
      ∧ (pulpIngressController deps api pulp).result.RequeueAfter = 60000000000
      ∧ (pulpIngressController deps api pulp).trace =
          [ Action.List pulp.Namespace (contentLabels pulp),
            Action.LogError "Failed to list Content pods" ] := by
  have hout : pulpIngressController deps api pulp =
      { result := { RequeueAfter := Minute }, err := none,
        trace := [Action.List pulp.Namespace (contentLabels pulp)] ++
          [Action.LogError "Failed to list Content pods"] } := by
    unfold pulpIngressController
    simp only [hlist]
  rw [hout]
  exact ⟨rfl, rfl, by norm_num [Minute, Second], rfl⟩

/-- C9, amended, on the cluster whose list call fails. -/
theorem pulpIngressController_list_error_witness :
    (pulpIngressController sampleDeps listFailsCluster samplePulp).err = none
      ∧ (pulpIngressController sampleDeps listFailsCluster samplePulp).result =
          { Requeue := false, RequeueAfter := Minute }
      ∧ (pulpIngressController sampleDeps listFailsCluster samplePulp).result.RequeueAfter =
          60000000000
      ∧ (pulpIngressController sampleDeps listFailsCluster samplePulp).trace =
          [ Action.List samplePulp.Namespace (contentLabels samplePulp),
            Action.LogError "Failed to list Content pods" ] :=
  pulpIngressController_list_error sampleDeps listFailsCluster samplePulp
    { Error := "etcd timeout", IsNotFound := false } rfl

/-! ## C10 -/

/-- C10: in a pass that reaches the ingress lookup, if the lookup reports
not-found and the create call fails, the pass calls the status tracker with
Ingress-Ready `False` and the reason `ErrorCreatingIngress`, returns the
creation error, and makes no status call with `True`; if the lookup fails with
another error, that error is returned and no create is attempted. -/
theorem pulpIngressController_lookup_and_create_errors (deps : Deps) (api : Cluster)
    (pulp : Pulp) (items : List Pod) (out : String) (e : GoError)
    (hlist : api.list pulp.Namespace (contentLabels pulp) = .ok items)
    (hrun : (scanPods items).IsPodRunning = true)
    (hexec : api.containerExec (scanPods items).pod ["/usr/bin/route_paths.py", pulp.Name]
      "content" (scanPods items).pod.Namespace = .ok out)
    (hget : api.get pulp.Name pulp.Namespace = some e) :
    (e.IsNotFound = true →
        ∀ ce, api.create (SetControllerReference pulp (pulpIngressObject pulp
            (mergePlugins deps pulp (deps.jsonUnmarshal out)))) = some ce →
          (pulpIngressController deps api pulp).err = some ce
          ∧ Action.UpdateStatus ConditionStatus.ConditionFalse
              (pulp.Spec.DeploymentType ++ "-Ingress-Ready") "ErrorCreatingIngress"
              ("Failed to create " ++ pulp.Name ++ "-ingress: " ++ ce.Error) ∈
              (pulpIngressController deps api pulp).trace
          ∧ ∀ a ∈ (pulpIngressController deps api pulp).trace, ∀ t r msg,
              a ≠ Action.UpdateStatus ConditionStatus.ConditionTrue t r msg)
      ∧ (e.IsNotFound = false →
          (pulpIngressController deps api pulp).err = some e
          ∧ ∀ a ∈ (pulpIngressController deps api pulp).trace, a.isCreate = false) := by
  have hout := controller_after_exec deps api pulp items out hlist hrun hexec
  have hlog := scanPods_trace_log items
  refine ⟨?_, ?_⟩
  · intro hnf ce hcreate
    rw [hout, reconcile_create_failed deps api pulp _ _ e ce hget hnf hcreate]
    refine ⟨rfl, by simp, ?_⟩
    intro a ha t r msg
    simp only [List.mem_append, List.mem_cons, List.mem_singleton, List.not_mem_nil,
      or_false] at ha
    rcases ha with ((((ha | ha) | ha) | ha) | (ha | ha | ha)) | (ha | ha | ha)
    · subst ha; simp
    · obtain ⟨m, rfl⟩ := hlog a ha
      simp
    all_goals subst ha; simp
  · intro hnf
    rw [hout, reconcile_get_failed deps api pulp _ _ e hget hnf]
    refine ⟨rfl, ?_⟩
    intro a ha
    simp only [List.mem_append, List.mem_cons, List.mem_singleton, List.not_mem_nil,
      or_false] at ha
    rcases ha with (((ha | ha) | ha) | ha) | ha
    · subst ha; rfl
    · obtain ⟨m, rfl⟩ := hlog a ha
      rfl
    all_goals subst ha; rfl

/-- C10, on a cluster where the creation fails and on a cluster where the
lookup fails with an error other than not-found. -/
theorem pulpIngressController_lookup_and_create_errors_witness :
    ((pulpIngressController sampleDeps createFailsCluster samplePulp).err =
          some { Error := "admission denied", IsNotFound := false }
        ∧ Action.UpdateStatus ConditionStatus.ConditionFalse "pulp-Ingress-Ready"
            "ErrorCreatingIngress" "Failed to create pulp-ingress: admission denied" ∈
            (pulpIngressController sampleDeps createFailsCluster samplePulp).trace
        ∧ ∀ a ∈ (pulpIngressController sampleDeps createFailsCluster samplePulp).trace,
            ∀ t r msg, a ≠ Action.UpdateStatus ConditionStatus.ConditionTrue t r msg)
      ∧ ((pulpIngressController sampleDeps getFailsCluster samplePulp).err =
            some { Error := "internal error", IsNotFound := false }
          ∧ ∀ a ∈ (pulpIngressController sampleDeps getFailsCluster samplePulp).trace,
              a.isCreate = false) :=
  ⟨(pulpIngressController_lookup_and_create_errors sampleDeps createFailsCluster samplePulp
      [pendingPod, runningPod, otherRunningPod] "[]"
      { Error := "ingress not found", IsNotFound := true } rfl (by decide) rfl rfl).1 rfl
      { Error := "admission denied", IsNotFound := false } rfl,
   (pulpIngressController_lookup_and_create_errors sampleDeps getFailsCluster samplePulp
      [pendingPod, runningPod, otherRunningPod] "[]"
      { Error := "internal error", IsNotFound := false } rfl (by decide) rfl rfl).2 rfl⟩

/-! ## The branches that reach the readiness check -/

theorem reconcile_found (deps : Deps) (api : Cluster) (pulp : Pulp)
    (plugins : List IngressPlugin) (trace : List Action)
    (hget : api.get pulp.Name pulp.Namespace = none) :
    reconcileIngress deps api pulp plugins trace =
      finishIngress deps pulp pulp.Status.Conditions
        (trace ++ [Action.Get pulp.Name pulp.Namespace]) := by
  unfold reconcileIngress
  simp only [hget]

theorem reconcile_created (deps : Deps) (api : Cluster) (pulp : Pulp)
    (plugins : List IngressPlugin) (trace : List Action) (e : GoError)
    (hget : api.get pulp.Name pulp.Namespace = some e) (hnf : e.IsNotFound = true)
    (hcreate : api.create (SetControllerReference pulp (pulpIngressObject pulp plugins)) =
      none) :
    reconcileIngress deps api pulp plugins trace =
      finishIngress deps pulp
        (deps.updateStatus pulp ConditionStatus.ConditionFalse
          (pulp.Spec.DeploymentType ++ "-Ingress-Ready")
          "CreatingIngress" ("Creating " ++ pulp.Name ++ "-ingress"))
        (trace ++ [Action.Get pulp.Name pulp.Namespace] ++
          [ Action.LogInfo "Creating a new ingress",
            Action.UpdateStatus ConditionStatus.ConditionFalse
              (pulp.Spec.DeploymentType ++ "-Ingress-Ready")
              "CreatingIngress" ("Creating " ++ pulp.Name ++ "-ingress"),
            Action.Create (SetControllerReference pulp (pulpIngressObject pulp plugins)) ]) := by
  unfold reconcileIngress
  simp only [hget, hnf, hcreate, if_true]

theorem finishIngress_not_false (deps : Deps) (pulp : Pulp) (conditions : List Condition)
    (trace : List Action)
    (h : IsStatusConditionFalse conditions
      (deps.title pulp.Spec.DeploymentType ++ "-Ingress-Ready") = false) :
    finishIngress deps pulp conditions trace =
      { result := {}, err := none, trace := trace } := by
  unfold finishIngress
  simp [h]

theorem finishIngress_true_write (deps : Deps) (pulp : Pulp) (conditions : List Condition)
    (trace : List Action) (t r msg : String)
    (h : Action.UpdateStatus ConditionStatus.ConditionTrue t r msg ∈
      (finishIngress deps pulp conditions trace).trace) :
    Action.UpdateStatus ConditionStatus.ConditionTrue t r msg ∈ trace ∨
      IsStatusConditionFalse conditions
        (deps.title pulp.Spec.DeploymentType ++ "-Ingress-Ready") = true := by
  unfold finishIngress at h
  by_cases hc : IsStatusConditionFalse conditions
      (deps.title pulp.Spec.DeploymentType ++ "-Ingress-Ready") = true
  · exact Or.inr hc
  · rw [if_neg hc] at h
    exact Or.inl h

theorem scanPods_no_true_write (items : List Pod) (t r msg : String) :
    Action.UpdateStatus ConditionStatus.ConditionTrue t r msg ∉ (scanPods items).trace := by
  intro h
  obtain ⟨m, hm⟩ := scanPods_trace_log items _ h
  exact Action.noConfusion hm

/-! ## C11 -/

/-- C11: in a pass with a running content pod, a successful execution and an
existing ingress, where the Ingress-Ready condition is not `False`, the
controller makes no create, no status update and no event (the source has no
update call at all) and returns the empty result with a nil error; and in every
pass the status tracker is called with `True` only if the condition is `False`
when the pass reaches its readiness check. -/
theorem pulpIngressController_converged_pass (deps : Deps) (api : Cluster) (pulp : Pulp) :
    (∀ items out,
        api.list pulp.Namespace (contentLabels pulp) = .ok items →
        (scanPods items).IsPodRunning = true →
        api.containerExec (scanPods items).pod ["/usr/bin/route_paths.py", pulp.Name]
          "content" (scanPods items).pod.Namespace = .ok out →
        api.get pulp.Name pulp.Namespace = none →
        IsStatusConditionFalse pulp.Status.Conditions
          (deps.title pulp.Spec.DeploymentType ++ "-Ingress-Ready") = false →
        (pulpIngressController deps api pulp).result = { Requeue := false, RequeueAfter := 0 }
        ∧ (pulpIngressController deps api pulp).err = none
        ∧ ∀ a ∈ (pulpIngressController deps api pulp).trace,
            a.isCreate = false ∧ a.isUpdateStatus = false ∧ a.isEvent = false)
      ∧ (∀ t r msg,
          Action.UpdateStatus ConditionStatus.ConditionTrue t r msg ∈
            (pulpIngressController deps api pulp).trace →
          IsStatusConditionFalse (conditionsAtCheck deps api pulp)
            (deps.title pulp.Spec.DeploymentType ++ "-Ingress-Ready") = true) := by
  refine ⟨?_, ?_⟩
  · intro items out hlist hrun hexec hget hnot
    rw [controller_after_exec deps api pulp items out hlist hrun hexec,
      reconcile_found deps api pulp _ _ hget, finishIngress_not_false deps pulp _ _ hnot]
    refine ⟨rfl, rfl, ?_⟩
    intro a ha
    simp only [List.mem_append, List.mem_singleton] at ha
    rcases ha with ((ha | ha) | ha) | ha
    · subst ha; exact ⟨rfl, rfl, rfl⟩
    · obtain ⟨m, rfl⟩ := scanPods_trace_log items a ha
      exact ⟨rfl, rfl, rfl⟩
    · subst ha; exact ⟨rfl, rfl, rfl⟩
    · subst ha; exact ⟨rfl, rfl, rfl⟩
  · intro t r msg h
    cases hlist : api.list pulp.Namespace (contentLabels pulp) with
    | error e =>
      unfold pulpIngressController at h
      simp [hlist] at h
    | ok items =>
      have hscan := scanPods_no_true_write items t r msg
      cases hrun : (scanPods items).IsPodRunning with
      | false =>
        unfold pulpIngressController at h
        simp [hlist, hrun, hscan] at h
      | true =>
        cases hexec : api.containerExec (scanPods items).pod
            ["/usr/bin/route_paths.py", pulp.Name] "content"
            (scanPods items).pod.Namespace with
        | error e =>
          rw [controller_exec_failed deps api pulp items e hlist hrun hexec] at h
          simp [hscan] at h
        | ok out =>
          rw [controller_after_exec deps api pulp items out hlist hrun hexec] at h
          cases hget : api.get pulp.Name pulp.Namespace with
          | none =>
            rw [reconcile_found deps api pulp _ _ hget] at h
            rcases finishIngress_true_write deps pulp _ _ t r msg h with h1 | h1
            · simp [hscan] at h1
            · simpa [conditionsAtCheck, hget] using h1
          | some e =>
            cases hnf : e.IsNotFound with
            | false =>
              rw [reconcile_get_failed deps api pulp _ _ e hget hnf] at h
              simp [hscan] at h
            | true =>
              cases hcreate : api.create (SetControllerReference pulp
                  (pulpIngressObject pulp
                    (mergePlugins deps pulp (deps.jsonUnmarshal out)))) with
              | some ce =>
                rw [reconcile_create_failed deps api pulp _ _ e ce hget hnf hcreate] at h
                simp [hscan] at h
              | none =>
                rw [reconcile_created deps api pulp _ _ e hget hnf hcreate] at h
                rcases finishIngress_true_write deps pulp _ _ t r msg h with h1 | h1
                · simp [hscan] at h1
                · simpa [conditionsAtCheck, hget] using h1

/-- C11, on the converged sample cluster (no write at all), and on the same
cluster with the condition still `False` (the only pass that writes `True`). -/
theorem pulpIngressController_converged_pass_witness :
    ((pulpIngressController sampleDeps convergedCluster samplePulp).result =
          { Requeue := false, RequeueAfter := 0 }
        ∧ (pulpIngressController sampleDeps convergedCluster samplePulp).err = none
        ∧ ∀ a ∈ (pulpIngressController sampleDeps convergedCluster samplePulp).trace,
            a.isCreate = false ∧ a.isUpdateStatus = false ∧ a.isEvent = false)
      ∧ (Action.UpdateStatus ConditionStatus.ConditionTrue "pulp-Ingress-Ready"
            "IngressTasksFinished" "All Ingress tasks ran successfully" ∈
            (pulpIngressController sampleDeps convergedCluster pendingReadyPulp).trace
          ∧ IsStatusConditionFalse
              (conditionsAtCheck sampleDeps convergedCluster pendingReadyPulp)
              (sampleDeps.title pendingReadyPulp.Spec.DeploymentType ++ "-Ingress-Ready") =
              true) :=
  ⟨(pulpIngressController_converged_pass sampleDeps convergedCluster samplePulp).1
      [pendingPod, runningPod, otherRunningPod] "[]" rfl (by decide) rfl rfl (by decide),
   by decide,
   (pulpIngressController_converged_pass sampleDeps convergedCluster pendingReadyPulp).2
      "pulp-Ingress-Ready" "IngressTasksFinished" "All Ingress tasks ran successfully"
      (by decide)⟩

/-! ## The stored ingress -/

theorem liveIngressAfter_append (api : Cluster) (live : Option Ingress)
    (xs ys : List Action) :
    liveIngressAfter api live (xs ++ ys) =
      liveIngressAfter api (liveIngressAfter api live xs) ys := by
  simp [liveIngressAfter, List.foldl_append]

theorem liveIngressAfter_no_create (api : Cluster) (trace : List Action)
    (live : Option Ingress) (h : ∀ a ∈ trace, a.isCreate = false) :
    liveIngressAfter api live trace = live := by
  induction trace generalizing live with
  | nil => rfl
  | cons a rest ih =>
    have ha : a.isCreate = false := h a (List.mem_cons_self _ _)
    have hstep : storeIngress api live a = live := by
      cases a <;> first | rfl | exact absurd ha (by simp [Action.isCreate])
    have hrest := ih live (fun b hb => h b (List.mem_cons_of_mem _ hb))
    simp only [liveIngressAfter, List.foldl_cons] at hrest ⊢
    rw [hstep]
    exact hrest

theorem finishIngress_no_create (deps : Deps) (pulp : Pulp) (conditions : List Condition)
    (trace : List Action) :
    ∃ tail, (finishIngress deps pulp conditions trace).trace = trace ++ tail ∧
      ∀ a ∈ tail, a.isCreate = false := by
  unfold finishIngress
  split
  · refine ⟨_, rfl, ?_⟩
    intro a ha
    simp only [List.mem_cons, List.mem_singleton, List.not_mem_nil, or_false] at ha
    rcases ha with ha | ha <;> subst ha <;> rfl
  · exact ⟨[], (List.append_nil _).symm, by simp⟩

theorem prefix_no_create (pulp : Pulp) (items : List Pod) (pod : Pod) :
    ∀ a ∈ [Action.List pulp.Namespace (contentLabels pulp)] ++ (scanPods items).trace ++
        [Action.ContainerExec pod ["/usr/bin/route_paths.py", pulp.Name] "content"
          pod.Namespace] ++ [Action.Get pulp.Name pulp.Namespace],
      a.isCreate = false := by
  intro a ha
  simp only [List.mem_append, List.mem_singleton] at ha
  rcases ha with ((ha | ha) | ha) | ha
  · subst ha; rfl
  · obtain ⟨m, rfl⟩ := scanPods_trace_log items a ha
    rfl
  · subst ha; rfl
  · subst ha; rfl

/-! ## C12 -/

/-- C12 as stated fails: on a cluster whose live ingress has another host and no
path rule, so that it does not match the definition built from the descriptors
of the pass, the pass makes no create call and the stored ingress stays the
stale one. -/
theorem stale_ingress_is_not_updated :
    convergedCluster.get samplePulp.Name samplePulp.Namespace = none
      ∧ staleIngress ≠
          SetControllerReference samplePulp (pulpIngressObject samplePulp
            (mergePlugins sampleDeps samplePulp (sampleDeps.jsonUnmarshal "[]")))
      ∧ staleIngress.Spec.Rules.map (fun r => r.Host) ≠ [samplePulp.Spec.IngressHost]
      ∧ liveIngressAfter convergedCluster (some staleIngress)
          (pulpIngressController sampleDeps convergedCluster samplePulp).trace =
            some staleIngress := by
  decide

/-- C12, amended: the ingress is only ever created. When the lookup finds a
live ingress, the pass makes no create call (and the source has no update
call), so the stored object stays as it is, whether or not it matches the
desired definition; when the lookup reports not-found and the creation
succeeds, the stored object is the definition built from the merged
descriptors of the pass, owned by the resource. -/
theorem pulpIngressController_create_only (deps : Deps) (api : Cluster) (pulp : Pulp)
    (items : List Pod) (out : String) (live : Option Ingress)
    (hlist : api.list pulp.Namespace (contentLabels pulp) = .ok items)
    (hrun : (scanPods items).IsPodRunning = true)
    (hexec : api.containerExec (scanPods items).pod ["/usr/bin/route_paths.py", pulp.Name]
      "content" (scanPods items).pod.Namespace = .ok out) :
    (api.get pulp.Name pulp.Namespace = none →
        (∀ a ∈ (pulpIngressController deps api pulp).trace, a.isCreate = false)
        ∧ liveIngressAfter api live (pulpIngressController deps api pulp).trace = live)
      ∧ (∀ e, api.get pulp.Name pulp.Namespace = some e → e.IsNotFound = true →
          api.create (SetControllerReference pulp (pulpIngressObject pulp
            (mergePlugins deps pulp (deps.jsonUnmarshal out)))) = none →
          liveIngressAfter api live (pulpIngressController deps api pulp).trace =
            some (SetControllerReference pulp (pulpIngressObject pulp
              (defaultPlugins deps pulp ++ deps.jsonUnmarshal out)))) := by
  have hout := controller_after_exec deps api pulp items out hlist hrun hexec
  refine ⟨?_, ?_⟩
  · intro hget
    have hno : ∀ a ∈ (pulpIngressController deps api pulp).trace, a.isCreate = false := by
      rw [hout, reconcile_found deps api pulp _ _ hget]
      obtain ⟨tail, htail, hno⟩ := finishIngress_no_create deps pulp pulp.Status.Conditions
        ([Action.List pulp.Namespace (contentLabels pulp)] ++ (scanPods items).trace ++
          [Action.ContainerExec (scanPods items).pod ["/usr/bin/route_paths.py", pulp.Name]
            "content" (scanPods items).pod.Namespace] ++
          [Action.Get pulp.Name pulp.Namespace])
      rw [htail]
      intro a ha
      rcases List.mem_append.1 ha with ha | ha
      · exact prefix_no_create pulp items _ a ha
      · exact hno a ha
    exact ⟨hno, liveIngressAfter_no_create api _ live hno⟩
  · intro e hget hnf hcreate
    rw [hout, reconcile_created deps api pulp _ _ e hget hnf hcreate]
    obtain ⟨tail, htail, hno⟩ := finishIngress_no_create deps pulp
      (deps.updateStatus pulp ConditionStatus.ConditionFalse
        (pulp.Spec.DeploymentType ++ "-Ingress-Ready")
        "CreatingIngress" ("Creating " ++ pulp.Name ++ "-ingress"))
      ([Action.List pulp.Namespace (contentLabels pulp)] ++ (scanPods items).trace ++
        [Action.ContainerExec (scanPods items).pod ["/usr/bin/route_paths.py", pulp.Name]
          "content" (scanPods items).pod.Namespace] ++
        [Action.Get pulp.Name pulp.Namespace] ++
        [ Action.LogInfo "Creating a new ingress",
          Action.UpdateStatus ConditionStatus.ConditionFalse
            (pulp.Spec.DeploymentType ++ "-Ingress-Ready")
            "CreatingIngress" ("Creating " ++ pulp.Name ++ "-ingress"),
          Action.Create (SetControllerReference pulp (pulpIngressObject pulp
            (mergePlugins deps pulp (deps.jsonUnmarshal out)))) ])
    rw [htail, liveIngressAfter_append, liveIngressAfter_append,
      liveIngressAfter_no_create api tail _ hno,
      liveIngressAfter_no_create api _ live (prefix_no_create pulp items _)]
    simp only [mergePlugins] at hcreate ⊢
    simp [liveIngressAfter, storeIngress, hcreate]

/-- C12, amended, on the cluster with a stale ingress (left as it is) and on
the cluster without ingress (the built definition is stored). -/
theorem pulpIngressController_create_only_witness :
    ((∀ a ∈ (pulpIngressController sampleDeps convergedCluster samplePulp).trace,
          a.isCreate = false)
        ∧ liveIngressAfter convergedCluster (some staleIngress)
            (pulpIngressController sampleDeps convergedCluster samplePulp).trace =
              some staleIngress)
      ∧ liveIngressAfter freshCluster none
          (pulpIngressController sampleDeps freshCluster samplePulp).trace =
            some (SetControllerReference samplePulp (pulpIngressObject samplePulp
              (defaultPlugins sampleDeps samplePulp ++ sampleDeps.jsonUnmarshal "[]"))) :=
  ⟨(pulpIngressController_create_only sampleDeps convergedCluster samplePulp
      [pendingPod, runningPod, otherRunningPod] "[]" (some staleIngress) rfl (by decide)
      rfl).1 rfl,
   (pulpIngressController_create_only sampleDeps freshCluster samplePulp
      [pendingPod, runningPod, otherRunningPod] "[]" none rfl (by decide) rfl).2
      notFoundErr rfl rfl rfl⟩

/-! ## Presence of the configuration snippet -/

theorem StringMap.has_set_same (m : StringMap) (k v : String) :
    (StringMap.set m k v).has k = true := by
  induction m with
  | nil => simp [StringMap.set, StringMap.has]
  | cons kv rest ih =>
    obtain ⟨k', v'⟩ := kv
    by_cases h : k' = k
    · simp [StringMap.set, StringMap.has, h]
    · have ih2 := ih
      simp only [StringMap.has] at ih2
      simp [StringMap.set, StringMap.has, h, ih2]

theorem StringMap.get_of_not_has (m : StringMap) (k : String)
    (h : StringMap.has m k = false) : StringMap.get m k = "" := by
  unfold StringMap.has at h
  unfold StringMap.get
  cases hf : List.find? (fun kv => kv.1 == k) m with
  | none => rfl
  | some kv => rw [hf] at h; exact absurd h (by simp)

theorem rewriteOf_not_in_empty (p : IngressPlugin) :
    stringsContains "" (rewriteOf p) = false := by
  have h : (rewriteOf p).data =
      'r' :: ("ewrite ^".data ++ (stringsTrimRight p.Path "/").data ++ "* ".data ++
        p.Rewrite.data ++ ";".data) := by
    simp [rewriteOf, String.data_append]
  simp [stringsContains, containsAt, h]

theorem loopBody_rewrite_has (st : LoopState) (p : IngressPlugin) (hp : p.Rewrite ≠ "") :
    (loopBody st p).annotations.has snippetKey = true := by
  rw [loopBody_rewrite st p hp]
  by_cases hc : stringsContains (st.annotations.get snippetKey) (rewriteOf p) = true
  · rw [if_pos hc]
    cases hh : st.annotations.has snippetKey with
    | true => rfl
    | false =>
      rw [StringMap.get_of_not_has _ _ hh, rewriteOf_not_in_empty] at hc
      exact absurd hc (by decide)
  · rw [if_neg hc]
    exact StringMap.has_set_same _ _ _

theorem loopBody_rewrite_contains (st : LoopState) (p : IngressPlugin)
    (hp : p.Rewrite ≠ "") :
    stringsContains ((loopBody st p).annotations.get snippetKey) (rewriteOf p) = true := by
  rw [loopBody_rewrite st p hp]
  by_cases hc : stringsContains (st.annotations.get snippetKey) (rewriteOf p) = true
  · rw [if_pos hc]; exact hc
  · rw [if_neg hc]
    show stringsContains ((st.annotations.set snippetKey (rewriteOf p)).get snippetKey)
      (rewriteOf p) = true
    rw [StringMap.get_set_same]
    exact stringsContains_self _

/-! ## C14 -/

/-- C14: if no descriptor of the list carries a rewrite, the ingress has no
configuration-snippet annotation; if `p` is the last rewrite-bearing
descriptor of the list, the annotation is present and its value contains the
string `rewrite ^` + (path of `p` with trailing `/` trimmed) + `* ` + rewrite of
`p` + `;` as a substring. -/
theorem pulpIngressObject_configuration_snippet (m : Pulp) (ps : List IngressPlugin) :
    ((∀ p ∈ ps, p.Rewrite = "") →
        (pulpIngressObject m ps).ObjectMeta.Annotations.has
          "nginx.ingress.kubernetes.io/configuration-snippet" = false)
      ∧ (∀ pre p post, ps = pre ++ p :: post → p.Rewrite ≠ "" →
          (∀ q ∈ post, q.Rewrite = "") →
          (pulpIngressObject m ps).ObjectMeta.Annotations.has
              "nginx.ingress.kubernetes.io/configuration-snippet" = true
            ∧ stringsContains
                ((pulpIngressObject m ps).ObjectMeta.Annotations.get
                  "nginx.ingress.kubernetes.io/configuration-snippet")
                ("rewrite ^" ++ stringsTrimRight p.Path "/" ++ "* " ++ p.Rewrite ++ ";") =
                true) := by
  refine ⟨?_, ?_⟩
  · intro hall
    show (runLoop { annotations := initialAnnotations m, paths := [] } ps).annotations.has
      snippetKey = false
    rw [runLoop_no_rewrite ps _ hall]
    rfl
  · intro pre p post hps hp hpost
    subst hps
    have hann := annotation_after_last_rewrite
      { annotations := initialAnnotations m, paths := [] } pre post p hpost
    refine ⟨?_, ?_⟩
    · show (runLoop { annotations := initialAnnotations m, paths := [] }
        (pre ++ p :: post)).annotations.has snippetKey = true
      rw [hann]
      exact loopBody_rewrite_has _ p hp
    · show stringsContains
        ((runLoop { annotations := initialAnnotations m, paths := [] }
          (pre ++ p :: post)).annotations.get snippetKey) (rewriteOf p) = true
      rw [hann]
      exact loopBody_rewrite_contains _ p hp

/-- C14, on the sample resource: without rewrite there is no snippet; with two
rewrite-bearing descriptors the snippet contains the string built from the
last one. -/
theorem pulpIngressObject_configuration_snippet_witness :
    (pulpIngressObject samplePulp [sampleRootPlugin]).ObjectMeta.Annotations.has
        "nginx.ingress.kubernetes.io/configuration-snippet" = false
      ∧ (pulpIngressObject samplePulp
            [outerRewritePlugin, sampleRootPlugin, innerRewritePlugin,
              sampleRootPlugin]).ObjectMeta.Annotations.has
          "nginx.ingress.kubernetes.io/configuration-snippet" = true
      ∧ stringsContains
          ((pulpIngressObject samplePulp
            [outerRewritePlugin, sampleRootPlugin, innerRewritePlugin,
              sampleRootPlugin]).ObjectMeta.Annotations.get
            "nginx.ingress.kubernetes.io/configuration-snippet")
          ("rewrite ^" ++ stringsTrimRight innerRewritePlugin.Path "/" ++ "* " ++
            innerRewritePlugin.Rewrite ++ ";") = true :=
  ⟨(pulpIngressObject_configuration_snippet samplePulp [sampleRootPlugin]).1 (by decide),
   (pulpIngressObject_configuration_snippet samplePulp
      [outerRewritePlugin, sampleRootPlugin, innerRewritePlugin, sampleRootPlugin]).2
      [outerRewritePlugin, sampleRootPlugin] innerRewritePlugin [sampleRootPlugin] rfl
      (by decide) (by decide)⟩

/-! ## C13 -/

theorem jsonUnmarshalPlugins_not_array (out : String)
    (hbad : ∀ elems, parseJson out ≠ some (.array elems)) :
    (jsonUnmarshalPlugins out).1 = [] := by
  unfold jsonUnmarshalPlugins
  cases hp : parseJson out with
  | none => rfl
  | some v =>
    cases v with
    | array elems => exact absurd hp (hbad elems)
    | null => rfl
    | bool b => rfl
    | number text => rfl
    | string s => rfl
    | object members => rfl

/-- C13 as stated fails: `mistypedOutput` does not parse as a list of route
descriptors (`json.Unmarshal` returns an error, the target port being a
number), yet the discovered list is not empty, the merged list is not the four
defaults, and the created ingress gets a fifth path rule. -/
theorem mistyped_output_still_adds_a_descriptor :
    (jsonUnmarshalPlugins mistypedOutput).2 = true
      ∧ (withGoJson sampleDeps).jsonUnmarshal mistypedOutput =
          [{ Name := "extra", Path := "/extra/", ServiceName := "extra-svc",
             TargetPort := "", Rewrite := "" }]
      ∧ mergePlugins (withGoJson sampleDeps) samplePulp
            ((withGoJson sampleDeps).jsonUnmarshal mistypedOutput) ≠
          defaultPlugins (withGoJson sampleDeps) samplePulp
      ∧ Action.Create (SetControllerReference samplePulp (pulpIngressObject samplePulp
            (defaultPlugins sampleDeps samplePulp ++
              [{ Name := "extra", Path := "/extra/", ServiceName := "extra-svc",
                 TargetPort := "", Rewrite := "" }]))) ∈
          (pulpIngressController (withGoJson sampleDeps) mistypedCluster samplePulp).trace := by
  decide

/-- C13, amended: for every captured output that is not a valid JSON text
(malformed or empty) or whose JSON value is not an array, the discovered list
is empty and the merged list is exactly the four defaults; the pass is then the
very pass an output `[]` gives, and with the ingress in place it returns no
error and makes no status call with `False`. -/
theorem pulpIngressController_unparsable_output (deps : Deps) (api : Cluster) (pulp : Pulp)
    (items : List Pod) (out : String)
    (hlist : api.list pulp.Namespace (contentLabels pulp) = .ok items)
    (hrun : (scanPods items).IsPodRunning = true)
    (hexec : api.containerExec (scanPods items).pod ["/usr/bin/route_paths.py", pulp.Name]
      "content" (scanPods items).pod.Namespace = .ok out)
    (hbad : ∀ elems, parseJson out ≠ some (.array elems)) :
    (withGoJson deps).jsonUnmarshal out = []
      ∧ mergePlugins (withGoJson deps) pulp ((withGoJson deps).jsonUnmarshal out) =
          defaultPlugins deps pulp
      ∧ (mergePlugins (withGoJson deps) pulp ((withGoJson deps).jsonUnmarshal out)).length = 4
      ∧ pulpIngressController (withGoJson deps) api pulp =
          pulpIngressController (withGoJson deps)
            { api with containerExec := fun _ _ _ _ => .ok "[]" } pulp
      ∧ (api.get pulp.Name pulp.Namespace = none →
          (pulpIngressController (withGoJson deps) api pulp).err = none
          ∧ ∀ a ∈ (pulpIngressController (withGoJson deps) api pulp).trace, ∀ t r msg,
              a ≠ Action.UpdateStatus ConditionStatus.ConditionFalse t r msg) := by
  have hempty : (withGoJson deps).jsonUnmarshal out = [] :=
    jsonUnmarshalPlugins_not_array out hbad
  have hnil : (withGoJson deps).jsonUnmarshal "[]" = [] := by
    show (jsonUnmarshalPlugins "[]").1 = []
    decide
  have hmerge : mergePlugins (withGoJson deps) pulp ((withGoJson deps).jsonUnmarshal out) =
      defaultPlugins deps pulp := by
    rw [hempty, mergePlugins, List.append_nil]
    rfl
  have hout := controller_after_exec (withGoJson deps) api pulp items out hlist hrun hexec
  have hout2 := controller_after_exec (withGoJson deps)
    { api with containerExec := fun _ _ _ _ => .ok "[]" } pulp items "[]" hlist hrun rfl
  refine ⟨hempty, hmerge, ?_, ?_, ?_⟩
  · rw [hmerge]; rfl
  · rw [hout, hout2, hempty, hnil]
    rfl
  · intro hget
    rw [hout, reconcile_found (withGoJson deps) api pulp _ _ hget]
    unfold finishIngress
    split
    · refine ⟨rfl, ?_⟩
      intro a ha t r msg
      simp only [List.mem_append, List.mem_cons, List.mem_singleton, List.not_mem_nil,
        or_false] at ha
      rcases ha with ((((ha | ha) | ha) | ha) | (ha | ha))
      · subst ha; simp
      · obtain ⟨m, rfl⟩ := scanPods_trace_log items a ha
        simp
      all_goals subst ha; simp
    · refine ⟨rfl, ?_⟩
      intro a ha t r msg
      simp only [List.mem_append, List.mem_singleton] at ha
      rcases ha with (((ha | ha) | ha) | ha)
      · subst ha; simp
      · obtain ⟨m, rfl⟩ := scanPods_trace_log items a ha
        simp
      all_goals subst ha; simp

/-- C13, amended, on a cluster whose content pod prints a Python traceback. -/
theorem pulpIngressController_unparsable_output_witness :
    (withGoJson sampleDeps).jsonUnmarshal "Traceback (most recent call last):" = []
      ∧ mergePlugins (withGoJson sampleDeps) samplePulp
            ((withGoJson sampleDeps).jsonUnmarshal "Traceback (most recent call last):") =
          defaultPlugins sampleDeps samplePulp
      ∧ (pulpIngressController (withGoJson sampleDeps) garbledCluster samplePulp).err = none
      ∧ ∀ a ∈ (pulpIngressController (withGoJson sampleDeps) garbledCluster samplePulp).trace,
          ∀ t r msg, a ≠ Action.UpdateStatus ConditionStatus.ConditionFalse t r msg := by
  have h := pulpIngressController_unparsable_output sampleDeps garbledCluster samplePulp
    [pendingPod, runningPod, otherRunningPod] "Traceback (most recent call last):"
    rfl (by decide) rfl
    (by
      intro elems he
      have hnone : parseJson "Traceback (most recent call last):" = none := by rfl
      rw [hnone] at he
      exact Option.noConfusion he)
  exact ⟨h.1, h.2.1, (h.2.2.2.2 rfl).1, (h.2.2.2.2 rfl).2⟩

end PulpOperator
